import Mathlib

/-!
# Verification of the SEC filing retrieval-and-extraction pipeline

Shallow embedding of `app/tools/sec_search.py`: the identifier resolver,
the document fetcher's cache logic, the section extractor, the fact
extractors (financial line items, pretax margin, ARPPU/membership,
guidance, board nominees) and the search orchestration.

Python regular expressions are modelled by a small backtracking engine
(`RE`, `Re.mrun`) with Python `re` semantics: leftmost match, greedy
repetition tries the longest first, lazy repetition the shortest first,
alternation prefers the left branch, capture groups record the last
captured text.  Python floats are modelled as rationals (`ℚ`); the
numeric values appearing in the verified claims are exact decimals on
which float and rational arithmetic agree.
-/

attribute [local semireducible] Rat.mul Rat.add Rat.sub Rat.inv

namespace SecSearch

/-- Deep embedding of the regular-expression fragment used by the source. -/
inductive RE : Type where
  /-- empty word -/
  | eps : RE
  /-- single character satisfying a predicate -/
  | pred : (Char → Bool) → RE
  /-- concatenation -/
  | cat : RE → RE → RE
  /-- alternation, left branch preferred -/
  | alt : RE → RE → RE
  /-- repetition: at least `lo` times, at most `hi` (none = unbounded);
      `greedy` selects longest-first vs shortest-first -/
  | rep : Nat → Option Nat → Bool → RE → RE
  /-- capture group with index -/
  | grp : Nat → RE → RE
  /-- positive lookahead `(?=a)` -/
  | look : RE → RE
  /-- negative lookahead `(?!a)` -/
  | nlook : RE → RE
  /-- word boundary `\b` -/
  | wordB : RE
  /-- absolute end of input `\Z` -/
  | endAbs : RE
  /-- `$` without MULTILINE: end of input or before a final newline -/
  | eol : RE
  /-- `^` without MULTILINE: start of input -/
  | bos : RE

namespace Re

/-- Captured groups: `(index, captured text)`, most recent first. -/
abbrev Groups := List (Nat × List Char)

/-- Python `\w` (ASCII portion, as used by the source's patterns). -/
def isWordChar (c : Char) : Bool := c.isAlphanum || c = '_'

/-- A match outcome: text remaining after the match, the previous
character at that point, and the captured groups. -/
abbrev MState := List Char × Option Char × Groups

/-- Backtracking matcher in continuation-passing style.  `fuel` bounds
the recursion; every recursive call decreases it.  `prev` is the
character immediately before the current position (`none` at the start
of the text), needed for `\b` and `^`.  Repetition bodies are required
to consume at least one character per iteration (every repetition body
in the source's patterns does). -/
def mrun (fuel : Nat) (r : RE) (s : List Char) (prev : Option Char)
    (gs : Groups) (k : List Char → Option Char → Groups → Option MState) :
    Option MState :=
  match fuel with
  | 0 => none
  | fuel + 1 =>
    match r with
    | .eps => k s prev gs
    | .pred p =>
      match s with
      | [] => none
      | c :: cs => if p c then k cs (some c) gs else none
    | .cat a b =>
      mrun fuel a s prev gs (fun s' p' g' => mrun fuel b s' p' g' k)
    | .alt a b =>
      match mrun fuel a s prev gs k with
      | some r => some r
      | none => mrun fuel b s prev gs k
    | .rep lo hi greedy a =>
      match lo with
      | l + 1 =>
        mrun fuel a s prev gs (fun s' p' g' =>
          mrun fuel (.rep l (hi.map (· - 1)) greedy a) s' p' g' k)
      | 0 =>
        match hi with
        | some 0 => k s prev gs
        | _ =>
          let hi' := hi.map (· - 1)
          let once : Option MState :=
            mrun fuel a s prev gs (fun s' p' g' =>
              if s'.length < s.length then
                mrun fuel (.rep 0 hi' greedy a) s' p' g' k
              else none)
          if greedy then
            match once with
            | some r => some r
            | none => k s prev gs
          else
            match k s prev gs with
            | some r => some r
            | none => once
    | .grp i a =>
      mrun fuel a s prev gs (fun s' p' g' =>
        k s' p' ((i, s.take (s.length - s'.length)) :: g'))
    | .look a =>
      match mrun fuel a s prev gs (fun s' p' g' => some (s', p', g')) with
      | some (_, _, g2) => k s prev g2
      | none => none
    | .nlook a =>
      match mrun fuel a s prev gs (fun s' p' g' => some (s', p', g')) with
      | some _ => none
      | none => k s prev gs
    | .wordB =>
      let left := match prev with | none => false | some c => isWordChar c
      let right := match s with | [] => false | c :: _ => isWordChar c
      if left ≠ right then k s prev gs else none
    | .endAbs => if s.isEmpty then k s prev gs else none
    | .eol =>
      match s with
      | [] => k s prev gs
      | ['\n'] => k s prev gs
      | _ => none
    | .bos =>
      match prev with
      | none => k s prev gs
      | some _ => none

/-- Default fuel: generous bound on the matcher's recursion depth for a
text of length `n` and the source's patterns. -/
def fuelFor (n : Nat) : Nat := 200 * (n + 50)

/-- Try to match `r` at the current position; returns consumed prefix
length, the remaining text and the groups. -/
def matchHere (r : RE) (s : List Char) (prev : Option Char) :
    Option (Nat × List Char × Groups) :=
  match mrun (fuelFor s.length) r s prev [] (fun s' _ g' => some (s', none, g')) with
  | some (rest, _, gs) => some (s.length - rest.length, rest, gs)
  | none => none

/-- One match record: text before the match, the matched text, the text
after, and the captured groups. -/
structure MatchRes where
  pre : List Char
  matched : List Char
  post : List Char
  groups : Groups
  deriving Repr, DecidableEq

/-- Leftmost search from the current position (`prev` = character before
`s`); scans positions left to right like Python `re.search`. -/
def searchAux : List Char → Option Char → List Char → RE → Option MatchRes
  | s, prev, acc, r =>
    match matchHere r s prev with
    | some (n, rest, gs) => some ⟨acc.reverse, s.take n, rest, gs⟩
    | none =>
      match s with
      | [] => none
      | c :: cs => searchAux cs (some c) (c :: acc) r

/-- Python `re.search`. -/
def search (r : RE) (s : List Char) : Option MatchRes := searchAux s none [] r

/-- Group `i` of a match (`none` if the group did not participate). -/
def group (m : MatchRes) (i : Nat) : Option (List Char) :=
  (m.groups.find? (fun p => p.1 == i)).map (·.2)

end Re

open Re

/-- `\s` for ASCII text (Python's whitespace class). -/
def isSpace (c : Char) : Bool :=
  c = ' ' || c = '\t' || c = '\n' || c = '\r' || c = '\x0b' || c = '\x0c'

/-- Sequence a list of regexes. -/
def rcat (l : List RE) : RE := l.foldr .cat .eps

/-- Case-insensitive single character. -/
def chI (c : Char) : RE := .pred (fun d => d.toLower == c.toLower)

/-- Case-sensitive single character. -/
def chS (c : Char) : RE := .pred (fun d => d == c)

/-- Case-insensitive literal. -/
def litI (s : String) : RE := rcat (s.data.map chI)

/-- Case-sensitive literal. -/
def litS (s : String) : RE := rcat (s.data.map chS)

/-- `\s` -/
def sp : RE := .pred isSpace
/-- `\s+` -/
def sp1 : RE := .rep 1 none true sp
/-- `\s*` -/
def sp0 : RE := .rep 0 none true sp
/-- `\d` -/
def dig : RE := .pred Char.isDigit
/-- `.` without DOTALL -/
def dotNL : RE := .pred (fun c => c ≠ '\n')
/-- `.` with DOTALL / `[\s\S]` -/
def dotAll : RE := .pred (fun _ => true)
/-- lazy `.*?` without DOTALL -/
def lazyDot : RE := .rep 0 none false dotNL
/-- lazy `.*?` with DOTALL -/
def lazyDotAll : RE := .rep 0 none false dotAll
/-- `X?` greedy optional -/
def ropt (a : RE) : RE := .rep 0 (some 1) true a
/-- `X+` greedy -/
def rplus (a : RE) : RE := .rep 1 none true a
/-- `X*` greedy -/
def rstar (a : RE) : RE := .rep 0 none true a
/-- alternation of a list, left preferred -/
def ralt : List RE → RE
  | [] => .pred (fun _ => false)
  | [a] => a
  | a :: rest => .alt a (ralt rest)
/-- case-insensitive alternation of literals -/
def altI (l : List String) : RE := ralt (l.map litI)

/-- `[\d.]+` greedy. -/
def numDot : RE := rplus (.pred (fun c => c.isDigit || c = '.'))

/-- `([\d.]+)` as group `i`. -/
def gNumDot (i : Nat) : RE := .grp i numDot

/-! ## Regex driver functions: findall and sub -/

/-- All non-overlapping matches, scanning left to right like Python
`re.findall`/`re.finditer`; after an empty match the scan advances one
character. -/
def findAllFrom : Nat → RE → List Char → Option Char → List Re.MatchRes
  | 0, _, _, _ => []
  | fuel + 1, r, s, prev =>
    match Re.searchAux s prev [] r with
    | none => []
    | some m =>
      if m.matched.isEmpty then
        m :: (match m.post with
              | [] => []
              | c :: cs => findAllFrom fuel r cs (some c))
      else m :: findAllFrom fuel r m.post m.matched.getLast?

/-- Python `re.findall` (match records). -/
def reFindAll (r : RE) (s : List Char) : List Re.MatchRes :=
  findAllFrom (s.length + 1) r s none

/-- `re.findall` for a pattern with a single capture group: the list of
group-1 captures. -/
def findAll1 (r : RE) (s : List Char) : List (List Char) :=
  (reFindAll r s).map (fun m => (Re.group m 1).getD [])

/-- Python `re.sub`: replace every non-overlapping match by `repl`. -/
def subFrom : Nat → RE → List Char → List Char → Option Char → List Char
  | 0, _, _, s, _ => s
  | fuel + 1, r, repl, s, prev =>
    match Re.searchAux s prev [] r with
    | none => s
    | some m =>
      m.pre ++ repl ++
        (if m.matched.isEmpty then
          match m.post with
          | [] => []
          | c :: cs => c :: subFrom fuel r repl cs (some c)
        else subFrom fuel r repl m.post m.matched.getLast?)

/-- Python `re.sub`. -/
def reSub (r : RE) (repl : List Char) (s : List Char) : List Char :=
  subFrom (s.length + 1) r repl s none

/-! ## Python string/number semantics -/

/-- Python `str.upper()` (ASCII, as used on this data). -/
def pyUpper (s : List Char) : List Char := s.map Char.toUpper

/-- Python `str.lower()`. -/
def pyLower (s : List Char) : List Char := s.map Char.toLower

/-- Python `str.strip()`: remove leading and trailing whitespace. -/
def pyStrip (s : List Char) : List Char :=
  ((s.dropWhile isSpace).reverse.dropWhile isSpace).reverse

/-- Python `needle in hay` on strings. -/
def containsSub (hay needle : List Char) : Bool :=
  match hay with
  | [] => needle.isEmpty
  | _ :: t => needle.isPrefixOf hay || containsSub t needle

/-- Python `str.replace(target, repl)` (all occurrences, left to right,
non-overlapping; `target` is non-empty in every use in the source). -/
def replaceSub : Nat → List Char → List Char → List Char → List Char
  | 0, s, _, _ => s
  | fuel + 1, s, target, repl =>
    if target.isPrefixOf s ∧ ¬target.isEmpty then
      repl ++ replaceSub fuel (s.drop target.length) target repl
    else
      match s with
      | [] => []
      | c :: cs => c :: replaceSub fuel cs target repl

/-- Python `str.replace`. -/
def pyReplace (s target repl : List Char) : List Char :=
  replaceSub (s.length + 1) s target repl

/-- Numeric value of a digit string. -/
def natOfDigits (s : List Char) : Nat :=
  s.foldl (fun a c => 10 * a + (c.toNat - 48)) 0

/-- Python `float(s)` restricted to the character set `[0-9.,]` produced
by the source's capture groups: digits with at most one dot succeed,
anything else (a comma, a second dot, no digits) raises `ValueError`,
modelled as `none`.  Floats are modelled as exact rationals. -/
def pyFloat? (s : List Char) : Option ℚ :=
  if s.any (fun c => ¬(c.isDigit || c = '.')) then none
  else if s.count '.' > 1 then none
  else if s.all (fun c => c = '.') then none
  else
    let ip := s.takeWhile (· ≠ '.')
    let fp := (s.dropWhile (· ≠ '.')).drop 1
    some ((natOfDigits ip : ℚ) + (natOfDigits fp : ℚ) / 10 ^ fp.length)

/-- Decimal digit character of `n < 10`. -/
def digitCh (n : Nat) : Char := Char.ofNat (48 + n)

/-- Decimal representation of a natural number (fuel-driven; the fuel
`n + 1` always suffices). -/
def natDecStrAux : Nat → Nat → List Char
  | 0, _ => []
  | fuel + 1, n =>
    if n < 10 then [digitCh n]
    else natDecStrAux fuel (n / 10) ++ [digitCh (n % 10)]

/-- Model of Python `str(n)` for a natural number. -/
def natDecStr (n : Nat) : List Char := natDecStrAux (n + 1) n

/-- Model of Python `str(i)` for an integer. -/
def intDecStr (i : Int) : List Char :=
  if i < 0 then '-' :: natDecStr i.natAbs else natDecStr i.toNat

/-- Python `str.zfill(width)`: left-pad with zeros to `width`, keeping a
leading sign in place. -/
def pyZfill (width : Nat) (s : List Char) : List Char :=
  match s with
  | c :: rest =>
    if c = '+' ∨ c = '-' then c :: (List.replicate ((width - 1) - rest.length) '0' ++ rest)
    else List.replicate (width - s.length) '0' ++ s
  | [] => List.replicate width '0'

/-- Python `str.split()` (split on whitespace runs, no empty fields);
fuel-driven, `s.length + 1` always suffices. -/
def splitWSAux : Nat → List Char → List (List Char)
  | 0, _ => []
  | fuel + 1, s =>
    match s.dropWhile isSpace with
    | [] => []
    | c :: cs =>
      ((c :: cs).takeWhile (fun d => ¬isSpace d)) ::
        splitWSAux fuel ((c :: cs).dropWhile (fun d => ¬isSpace d))

/-- Python `str.split()`. -/
def splitWS (s : List Char) : List (List Char) := splitWSAux (s.length + 1) s

/-- Deduplication preserving the first occurrence (Python's
`seen`-set idiom and `dict`/`Counter` key order). -/
def pyDedupFirstAux [DecidableEq α] : List α → List α → List α
  | _, [] => []
  | seen, x :: xs =>
    if x ∈ seen then pyDedupFirstAux seen xs
    else x :: pyDedupFirstAux (x :: seen) xs

/-- Deduplication preserving first occurrences. -/
def pyDedupFirst [DecidableEq α] (l : List α) : List α := pyDedupFirstAux [] l

/-- Python `sorted(list(set(l)))` for rationals: distinct values in
ascending order. -/
def pySortedSetAsc (l : List ℚ) : List ℚ :=
  (pyDedupFirst l).insertionSort (· ≤ ·)

/-- Python `sorted(list(set(l)), reverse=True)` for rationals. -/
def pySortedSetDesc (l : List ℚ) : List ℚ :=
  (pyDedupFirst l).insertionSort (· ≥ ·)

/-- `Counter(l).most_common(1)[0][0]`: the most frequent element; on
ties the first-inserted wins (Python `Counter` keeps insertion order and
`most_common` is stability-preserving). -/
def modeFirst (l : List ℚ) : ℚ :=
  match pyDedupFirst l with
  | [] => 0
  | x :: xs => xs.foldl (fun best v => if l.count best < l.count v then v else best) x

/-- Python `int(q)` on a float: truncation toward zero. -/
def truncQ (q : ℚ) : ℤ := if q < 0 then -⌊-q⌋ else ⌊q⌋

/-- Python `round(q)` to an integer: round half to even. -/
def roundHalfEven (q : ℚ) : ℤ :=
  let f := ⌊q⌋
  let r := q - f
  if r < 1/2 then f
  else if 1/2 < r then f + 1
  else if f % 2 = 0 then f else f + 1

/-- Python `round(q, k)`: round to `k` decimal places, half to even. -/
def pyRoundTo (k : Nat) (q : ℚ) : ℚ := (roundHalfEven (q * 10 ^ k) : ℚ) / 10 ^ k

/-- Code-point comparison of strings (Python `<` on `str`), as used by
`sorted` on period strings. -/
def strLeB : List Char → List Char → Bool
  | [], _ => true
  | _ :: _, [] => false
  | a :: as, b :: bs =>
    if a.toNat < b.toNat then true
    else if b.toNat < a.toNat then false
    else strLeB as bs

/-- Python `sorted(list(set(l)))` for strings. -/
def pySortedSetStr (l : List (List Char)) : List (List Char) :=
  (pyDedupFirst l).insertionSort (fun a b => strLeB a b = true)

/-- Python truthiness of an optional string (`None` and `""` are falsy). -/
def truthyS : Option (List Char) → Bool
  | none => false
  | some s => ¬s.isEmpty

/-!
## `clean_company_name` (sec_search.py lines 23–31)

```python
s = name.upper()
s = re.sub(r"\b(CORPORATION|CORP|INC|LLC|LLP|LTD|LIMITED|CO|COMPANY|PLC|AG|SA)\b\.?", "", s)
s = re.sub(r"[.,&''\-—–/\\()]+", " ", s)
s = re.sub(r"\s+", " ", s).strip()
s = re.sub(r"^THE\s+", "", s)
s = re.sub(r"\s+THE$", "", s)
return s.lower().strip()
```
-/

/-- `\b(CORPORATION|CORP|INC|LLC|LLP|LTD|LIMITED|CO|COMPANY|PLC|AG|SA)\b\.?` -/
def suffixPat : RE :=
  rcat [.wordB,
    .grp 1 (ralt [litS "CORPORATION", litS "CORP", litS "INC", litS "LLC",
      litS "LLP", litS "LTD", litS "LIMITED", litS "CO", litS "COMPANY",
      litS "PLC", litS "AG", litS "SA"]),
    .wordB, ropt (chS '.')]

/-- `[.,&''\-—–/\\()]+` (the class holds `.` `,` `&` `'` `-` em dash,
en dash, `/`, `\`, `(`, `)`). -/
def punctPat : RE :=
  rplus (.pred (fun c =>
    c = '.' || c = ',' || c = '&' || c = '\'' || c = '-' ||
    c = '—' || c = '–' || c = '/' || c = '\\' || c = '(' || c = ')'))

/-- `^THE\s+` -/
def theLeadPat : RE := rcat [.bos, litS "THE", sp1]

/-- `\s+THE$` -/
def theTrailPat : RE := rcat [sp1, litS "THE", .eol]

/-- `clean_company_name`: normalize a company name for matching. -/
def clean_company_name (name : List Char) : List Char :=
  let s := pyUpper name
  let s := reSub suffixPat [] s
  let s := reSub punctPat [' '] s
  let s := pyStrip (reSub sp1 [' '] s)
  let s := reSub theLeadPat [] s
  let s := reSub theTrailPat [] s
  pyStrip (pyLower s)

/-!
## Identifier resolution (sec_search.py lines 62–205)

`get_cik_from_ticker_or_name` downloads the
`company_tickers_exchange.json` registry and scans its rows; the model
takes the parsed rows as input (a network failure or non-200 response
returns `(None, None)` before the scan and is outside the scan model).
A row is `[cik, name, ticker, exchange]`; rows with fewer than four
fields are skipped by the source and omitted from the model, and
`int(row[0])` is modelled by the `cikField` component (`none` when
`int` raises and the row is skipped).
-/

structure RegRow where
  /-- `int(row[0])` when it succeeds -/
  cikField : Option Int
  /-- `str(row[1])` -/
  name : List Char
  /-- `str(row[2])` -/
  ticker : List Char
  deriving Repr, DecidableEq

/-- The per-row scan of `get_cik_from_ticker_or_name` (lines 93–121):
ticker equality first, then doubly-cleaned name equality, first
matching row wins. -/
def resolverGo (company_clean ticker_upper : List Char) :
    List RegRow → Option (List Char × List Char)
  | [] => none
  | r :: rest =>
    match r.cikField with
    | none => resolverGo company_clean ticker_upper rest
    | some i =>
      let cik_str := pyZfill 10 (intDecStr i)
      let tick := pyUpper (pyStrip r.ticker)
      let nameClean := clean_company_name (pyLower r.name)
      if tick = ticker_upper then some (cik_str, tick)
      else if company_clean = clean_company_name nameClean then some (cik_str, tick)
      else resolverGo company_clean ticker_upper rest

/-- `get_cik_from_ticker_or_name`: resolve a company to a 10-digit CIK
against the structured registry rows. -/
def get_cik_from_ticker_or_name (company_name ticker_symbol : Option (List Char))
    (rows : List RegRow) : Option (List Char × List Char) :=
  let wcompany := pyStrip (company_name.getD [])
  let wticker := pyStrip (ticker_symbol.getD [])
  if wcompany.isEmpty ∧ wticker.isEmpty then none
  else resolverGo (clean_company_name wcompany) (pyUpper wticker) rows

/-- Python `line.split(":", 1)`: the text before and after the first
colon. -/
def splitColon1 (line : List Char) : List Char × List Char :=
  (line.takeWhile (· ≠ ':'), (line.dropWhile (· ≠ ':')).drop 1)

/-- The id the archive scan extracts from one line (line 196):
`cik_part.strip().zfill(10).split(":", 1)[0]`. -/
def archiveIdOf (line : List Char) : List Char :=
  (pyZfill 10 (pyStrip (splitColon1 line).2)).takeWhile (· ≠ ':')

/-- The line scan of `get_cik_from_archive` (lines 191–202).  The model
takes the archive text (read from the disk cache or downloaded — the
I/O wrapper is not modelled) and scans one `name: cik` pair per line. -/
def archiveScan (search_lower : List Char) : List (List Char) → Option (List Char)
  | [] => none
  | line :: rest =>
    if ¬line.contains ':' then archiveScan search_lower rest
    else
      let cik := archiveIdOf line
      let clean_name := clean_company_name (splitColon1 line).1
      if cik ≠ "0000000000".data ∧ clean_name = search_lower then some cik
      else archiveScan search_lower rest

/-- `get_cik_from_archive`: fallback lookup over the flat
`cik-lookup-data.txt` archive. -/
def get_cik_from_archive (company_name : List Char) (data : List Char) :
    Option (List Char) :=
  archiveScan (clean_company_name (pyStrip company_name)) (data.splitOn '\n')

/-!
## Document fetcher (sec_search.py lines 395–585)

`fetch_filing_and_exhibit_html` checks the disk cache for the filing
text and the exhibit text, returns immediately on a (truthy) filing
cache hit, and otherwise downloads with up to three attempts.  The
model:

* the disk cache is a map from file name to content (`none` = file
  missing or unreadable, which the source treats alike);
* the network is an environment: `primary` lists the outcomes of the
  successive GET requests for the primary document (one per attempt),
  `exhibitResp` the outcome of the exhibit GET;
* `findExhibitHref` abstracts the BeautifulSoup scan of the fetched
  HTML for an Exhibit-99.1 link (lines 475–521), and `cleanHtml` the
  script/style-stripping text extraction (lines 536–543 and 553–559);
* the second component of the result counts the network requests
  issued.
-/

/-- Outcome of one HTTP GET. -/
inductive NetOutcome where
  /-- response with a status code and body -/
  | ok : Nat → List Char → NetOutcome
  /-- `asyncio.TimeoutError` -/
  | timeout : NetOutcome
  /-- any other exception -/
  | exn : NetOutcome
  deriving Repr, DecidableEq

/-- Network/HTML environment of one fetch. -/
structure FetchEnv where
  /-- outcomes of the successive primary-document GETs -/
  primary : List NetOutcome
  /-- outcome of the exhibit GET -/
  exhibitResp : List Char → NetOutcome
  /-- the Exhibit-99.1 link scan over the fetched HTML -/
  findExhibitHref : List Char → Option (List Char)
  /-- HTML-to-text cleaning -/
  cleanHtml : List Char → List Char

/-- Exhibit cache file name: `cache_filename.replace('.txt', '_ex991.txt')`. -/
def exhibitName (f : List Char) : List Char :=
  pyReplace f ".txt".data "_ex991.txt".data

/-- Exhibit URL construction (lines 505–513). -/
def buildExhibitUrl (cik accession href : List Char) : List Char :=
  if ("http".data).isPrefixOf href then href
  else if ("/".data).isPrefixOf href then "https://www.sec.gov".data ++ href
  else
    "https://www.sec.gov/Archives/edgar/data/".data ++ cik ++ "/".data ++
      (accession.filter (· ≠ '-')) ++ "/".data ++ href

/-- The download loop (lines 451–585): up to `max_retries = 3`
attempts; 429 and timeouts retry, other non-200 statuses and other
exceptions return `("", None)`.  On 200 the exhibit link is searched;
a found exhibit is fetched (non-200 keeps the prior exhibit text, an
exception clears it).  Returns the result and the number of requests
issued. -/
def fetchDownload (env : FetchEnv) (cik accession : List Char)
    (exhibit0 : Option (List Char)) :
    List NetOutcome → Nat → (List Char × Option (List Char)) × Nat
  | [], cnt => (([], none), cnt)
  | resp :: rest, cnt =>
    match resp with
    | .timeout => fetchDownload env cik accession exhibit0 rest (cnt + 1)
    | .exn => (([], none), cnt + 1)
    | .ok st body =>
      if st = 429 then fetchDownload env cik accession exhibit0 rest (cnt + 1)
      else if st ≠ 200 then (([], none), cnt + 1)
      else
        let filing := env.cleanHtml body
        match (env.findExhibitHref body).map (buildExhibitUrl cik accession) with
        | none => ((filing, exhibit0), cnt + 1)
        | some exUrl =>
          match env.exhibitResp exUrl with
          | .ok 200 exBody => ((filing, some (env.cleanHtml exBody)), cnt + 2)
          | .ok _ _ => ((filing, exhibit0), cnt + 2)
          | _ => ((filing, none), cnt + 2)

/-- `fetch_filing_and_exhibit_html`: cache check (lines 415–446), then
download.  Cache writes (STEP 6) do not affect the returned pair and
are not modelled. -/
def fetch_filing_and_exhibit_html (env : FetchEnv) (cik accession : List Char)
    (use_disk_cache : Bool) (cache_filename : Option (List Char))
    (cache : List Char → Option (List Char)) :
    (List Char × Option (List Char)) × Nat :=
  let cacheOn := use_disk_cache ∧ truthyS cache_filename
  let filingC : Option (List Char) :=
    if cacheOn then cache_filename.bind cache else none
  let exhibitC : Option (List Char) :=
    if cacheOn then cache_filename.bind (fun f => cache (exhibitName f)) else none
  if truthyS filingC ∧ truthyS exhibitC then
    ((filingC.getD [], exhibitC), 0)
  else if truthyS filingC then
    ((filingC.getD [], none), 0)
  else
    fetchDownload env cik accession exhibitC env.primary 0

/-!
## Section extraction (`extract_all_sections`, sec_search.py lines 591–677)

All patterns are compiled with `re.I | re.S`, so literals are
case-insensitive and `.` matches newlines.  The keyword filter in the
source is commented out, so the `keywords` argument is unused and
dropped from the model.
-/

/-- `[\s\S]{0,n}` (greedy bounded wildcard). -/
def anyUpTo (n : Nat) : RE := .rep 0 (some n) true dotAll

/-- `(?=Item\s+\d|\Z)` and friends: lookahead on an alternation ending
in `\Z`. -/
def lookNextOr (alts : List RE) : RE := .look (ralt (alts ++ [.endAbs]))

/-- `(Item\s+N\.NN.*?)(?=Item\s+\d|\Z)` for the 8-K item sections. -/
def itemPat (maj : Char) (minor : String) : RE :=
  rcat [.grp 1 (rcat [litI "Item", sp1, chI maj, chS '.', litI minor, lazyDotAll]),
    lookNextOr [rcat [litI "Item", sp1, dig]]]

/-- The 8-K pattern table (lines 604–619). -/
def patterns8K : List (String × RE) :=
  [("item_1_01", itemPat '1' "01"),
   ("item_2_01", itemPat '2' "01"),
   ("item_2_02", itemPat '2' "02"),
   ("item_5_02", itemPat '5' "02"),
   ("item_8_01", itemPat '8' "01"),
   ("ma_activity",
     rcat [.grp 1 (altI ["merger", "acquisition", "divestiture", "deal"]),
       rstar (.pred (· ≠ '\n')), lazyDotAll,
       lookNextOr [litS "\n\n"]]),
   ("guidance_section",
     rcat [ralt [litI "guidance", litI "outlook",
         .cat (litI "expect") (ropt (chI 's')),
         .cat (litI "projection") (ropt (chI 's')),
         .cat (litI "forecast") (ropt (chI 's'))],
       anyUpTo 4000]),
   ("earnings_release",
     rcat [altI ["EARNINGS RELEASE", "RESULTS OF OPERATIONS", "QUARTERLY RESULTS"],
       anyUpTo 6000]),
   ("financial_outlook",
     rcat [altI ["Financial Outlook", "Business Outlook", "2025 Outlook"],
       anyUpTo 5000]),
   ("board_changes",
     rcat [litI "director", rstar dotAll,
       altI ["appointed", "elected", "resigned", "nominated"],
       anyUpTo 3000])]

/-- The DEF 14A / DEFA14A pattern table (lines 624–630). -/
def patternsProxy : List (String × RE) :=
  [("board_nominees",
     rcat [ralt [litI "ELECTION OF DIRECTORS",
         rcat [litI "PROPOSAL", rstar dotAll, litI "ELECT", rstar dotAll,
           litI "DIRECTOR"],
         .cat (litI "DIRECTOR NOMINEE") (ropt (chI 'S'))],
       anyUpTo 8000]),
   ("nominee_details",
     rcat [ralt [rcat [litI "Class", sp1, rplus (chI 'I'), sp1, litI "Director"],
         rcat [litI "Nominee", ropt (chI 's'), sp1, litI "for", sp1,
           litI "Election"]],
       anyUpTo 5000]),
   ("director_qualifications",
     rcat [ralt [litI "DIRECTOR QUALIFICATIONS",
         .cat (litI "NOMINEE BIOGRAPHIE") (ropt (chI 'S'))],
       anyUpTo 8000]),
   ("proposal_1",
     rcat [.grp 1 (rcat [litI "PROPOSAL", sp1, .alt (chI '1') (litI "ONE"),
         lazyDotAll]),
       lookNextOr [rcat [litI "PROPOSAL", sp1, .alt (chI '2') (litI "TWO")]]])]

/-- The default (10-K/10-Q) pattern table (lines 636–653). -/
def patternsDefault : List (String × RE) :=
  [("business",
     rcat [.grp 1 (rcat [litI "Item", sp1, chI '1', ropt (chS '.'), sp1,
         litI "Business", lazyDotAll]),
       lookNextOr [rcat [litI "Item", sp1, chI '1', chI 'A']]]),
   ("risk_factors",
     rcat [.grp 1 (rcat [litI "Item", sp1, chI '1', chI 'A', ropt (chS '.'),
         sp1, litI "Risk", sp1, litI "Factors", lazyDotAll]),
       lookNextOr [rcat [litI "Item", sp1, chI '1', chI 'B']]]),
   ("mda",
     rcat [.grp 1 (rcat [litI "Item", sp1, chI '7', ropt (chS '.'), sp1,
         litI "Management", rstar (.pred (· ≠ '\n')), lazyDotAll]),
       lookNextOr [rcat [litI "Item", sp1, chI '7', chI 'A'],
         rcat [litI "Item", sp1, chI '8']]]),
   ("financial_statements",
     rcat [.grp 1 (rcat [litI "Item", sp1, chI '8', ropt (chS '.'), sp1,
         litI "Financial", sp1, litI "Statements", lazyDotAll]),
       lookNextOr [rcat [litI "Item", sp1, chI '9']]]),
   ("subscriber_metrics",
     rcat [ralt [rcat [litI "paid", rstar dotAll, litI "member"],
         litI "subscriber",
         rcat [litI "streaming", rstar dotAll, litI "member"],
         rcat [litI "average", rstar dotAll, litI "user"]],
       anyUpTo 3000]),
   ("revenue_per_user",
     rcat [ralt [rcat [litI "average", rstar dotAll, litI "revenue",
         rstar dotAll, .alt (litI "per") (chS '/')],
         litI "ARPU", litI "ARPPU"],
       anyUpTo 3000]),
   ("membership_table",
     rcat [.alt (litI "membership") (litI "subscriber"), rstar dotAll,
       .alt (litI "table") (litI "data"), anyUpTo 5000]),
   ("quarterly_table",
     rcat [ralt [.cat (chI 'Q') (.pred (fun c => '1' ≤ c ∧ c ≤ '4')),
         litI "First", litI "Second", litI "Third", litI "Fourth"],
       lazyDotAll, litI "Quarter", anyUpTo 5000]),
   ("three_months_ended",
     rcat [.alt (litI "Three") (chI '3'), sp1, litI "Months", sp1,
       litI "Ended", anyUpTo 4000]),
   ("margin_analysis",
     rcat [altI ["gross margin", "operating margin", "pre-tax margin",
       "profit margin"], anyUpTo 3000])]

/-- One section's content (lines 656–663): group 1 when the pattern
captures, else the whole match, truncated to 12000 characters and
stripped. -/
def sectionOf (r : RE) (text : List Char) : Option (List Char) :=
  (Re.search r text).map (fun m =>
    pyStrip (((Re.group m 1).getD m.matched).take 12000))

/-- `extract_all_sections`: apply every pattern of the form-selected
table; unmatched patterns are absent from the result. -/
def extract_all_sections (text form : List Char) : List (String × List Char) :=
  let formU := pyUpper form
  let pats :=
    if containsSub formU "8-K".data then patterns8K
    else if containsSub formU "DEF 14A".data ∨ containsSub formU "DEFA14A".data then
      patternsProxy
    else patternsDefault
  pats.filterMap (fun p => (sectionOf p.2 text).map (fun c => (p.1, c)))

/-!
## Pre-tax margin extraction (`extract_pretax_margin_data`,
sec_search.py lines 912–1030)

The result dict is modelled as a record of optional fields (absent key
= `none`).  The unprotected `float()` calls can raise `ValueError`
(e.g. on a captured `"1.2.3"`), modelled by an `Option` result:
`none` = the Python call raises.
-/

/-- The dict built by `extract_pretax_margin_data`. -/
structure PretaxData where
  actual_pct : Option ℚ := none
  beat_or_miss : Option String := none
  confidence : Option String := none
  source : Option String := none
  difference_bps : Option ℤ := none
  guidance_high_pct : Option ℚ := none
  margin_values : Option (List ℚ) := none
  quarterly_values : Option (List ℚ) := none
  deriving Repr, DecidableEq

/-- `if pretax_data:` — dict truthiness. -/
def PretaxData.isEmptyD (p : PretaxData) : Bool :=
  p.actual_pct = none ∧ p.beat_or_miss = none ∧ p.confidence = none ∧
  p.source = none ∧ p.difference_bps = none ∧ p.guidance_high_pct = none ∧
  p.margin_values = none ∧ p.quarterly_values = none

/-- `pretax\s+profit\s+margin\s+of\s+([\d.]+)%.*?(?:well\s+)?(above|below).*?(?:plan|guidance)`
(re.I, no DOTALL). -/
def tjxStylePat : RE :=
  rcat [litI "pretax", sp1, litI "profit", sp1, litI "margin", sp1, litI "of",
    sp1, gNumDot 1, chI '%', lazyDot, ropt (rcat [litI "well", sp1]),
    .grp 2 (.alt (litI "above") (litI "below")), lazyDot,
    .alt (litI "plan") (litI "guidance")]

/-- `pretax\s+(?:profit\s+)?margin.*?([\d.]+)%.*?(above|below).*?(?:plan|guidance).*?by\s+([\d.]+)\s+percentage\s+point` -/
def explicitDiffPat : RE :=
  rcat [litI "pretax", sp1, ropt (rcat [litI "profit", sp1]), litI "margin",
    lazyDot, gNumDot 1, chI '%', lazyDot,
    .grp 2 (.alt (litI "above") (litI "below")), lazyDot,
    .alt (litI "plan") (litI "guidance"), lazyDot, litI "by", sp1, gNumDot 3,
    sp1, litI "percentage", sp1, litI "point"]

/-- `pretax\s+profit\s+margin\s+of\s+([\d.]+)%` -/
def simplePretaxPat : RE :=
  rcat [litI "pretax", sp1, litI "profit", sp1, litI "margin", sp1, litI "of",
    sp1, gNumDot 1, chI '%']

/-- `Q[1-4]\s+pretax\s+profit\s+margin\s+of\s+([\d.]+)%` -/
def quarterlyPretaxPat : RE :=
  rcat [chI 'Q', .pred (fun c => '1' ≤ c ∧ c ≤ '4'), sp1, simplePretaxPat]

/-- `(?:up|down|by)\s+([\d.]+)\s+percentage\s+points?` -/
def diffCtxPat : RE :=
  rcat [ralt [litI "up", litI "down", litI "by"], sp1, gNumDot 1, sp1,
    litI "percentage", sp1, litI "point", ropt (chI 's')]

/-- Result assembly of the tjx-style branch (lines 957–984): beat/miss
from the direction word; when a nearby "up/down/by N percentage points"
qualifier was found, the basis-point delta and the reverse-engineered
guidance bound (actual ∓ delta, rounded to one decimal) are added and
confidence is raised from "medium" to "high". -/
def tjxFinish (actual : ℚ) (direction : List Char) (diffO : Option ℚ) :
    PretaxData :=
  let beat := direction = "above".data
  let base : PretaxData :=
    { actual_pct := some actual,
      beat_or_miss := some (if beat then "beat" else "miss"),
      confidence := some "medium",
      source := some "tjx_style_above_below_plan" }
  match diffO with
  | none => base
  | some diff =>
    { base with
      difference_bps := some (truncQ (diff * 100)),
      confidence := some "high",
      guidance_high_pct :=
        some (pyRoundTo 1 (if beat then actual - diff else actual + diff)) }

/-- Result assembly of the explicit-difference branch (lines 989–1009). -/
def explicitFinish (actual : ℚ) (direction : List Char) (diff : ℚ) :
    PretaxData :=
  let beat := direction = "above".data
  { actual_pct := some actual,
    guidance_high_pct :=
      some (pyRoundTo 1 (if beat then actual - diff else actual + diff)),
    difference_bps := some (truncQ (diff * 100)),
    beat_or_miss := some (if beat then "beat" else "miss"),
    confidence := some "high",
    source := some "explicit_difference" }

/-- `extract_pretax_margin_data`: the four patterns in priority order,
only the first matching one is used. -/
def extract_pretax_margin_data (text : List Char) : Option PretaxData :=
  let searchText := text.take 100000
  match Re.search tjxStylePat searchText with
  | some m =>
    (pyFloat? ((Re.group m 1).getD [])).bind fun actual =>
    let direction := pyLower ((Re.group m 2).getD [])
    let st := m.pre.length
    let en := st + m.matched.length
    let context := (searchText.take (en + 500)).drop (st - 200)
    match Re.search diffCtxPat context with
    | none => some (tjxFinish actual direction none)
    | some dm =>
      (pyFloat? ((Re.group dm 1).getD [])).map fun diff =>
        tjxFinish actual direction (some diff)
  | none =>
  match Re.search explicitDiffPat searchText with
  | some m =>
    (pyFloat? ((Re.group m 1).getD [])).bind fun actual =>
    (pyFloat? ((Re.group m 3).getD [])).map fun diff =>
      explicitFinish actual (pyLower ((Re.group m 2).getD [])) diff
  | none =>
  let simpleMs := findAll1 simplePretaxPat searchText
  if ¬simpleMs.isEmpty then
    ((simpleMs.take 3).mapM pyFloat?).map fun vs =>
      { margin_values := some vs, confidence := some "low",
        source := some "simple_extraction" }
  else
    let qMs := findAll1 quarterlyPretaxPat searchText
    if ¬qMs.isEmpty then
      ((qMs.take 4).mapM pyFloat?).map fun vs =>
        { quarterly_values := some vs, confidence := some "low",
          source := some "quarterly_mentions" }
    else some {}

/-!
## Financial line items, ARPPU and membership
(`extract_financial_data`, sec_search.py lines 684–886)

The returned `Dict[str, list]` holds heterogeneous values (string
lists for the labelled metrics, nested dicts for the pretax, ARPPU and
membership results); it is modelled as an association list over a
tagged value type, preserving Python's key insertion order.
-/

/-- `([\(\)]?[\d,]+[\(\)]?)` -/
def metGroup : RE :=
  .grp 1 (rcat [ropt (.pred (fun c => c = '(' || c = ')')),
    rplus (.pred (fun c => c.isDigit || c = ',')),
    ropt (.pred (fun c => c = '(' || c = ')'))])

/-- `([\d,]+(?:\.\d+)?)` -/
def numGroup2 : RE :=
  .grp 1 (rcat [rplus (.pred (fun c => c.isDigit || c = ',')),
    ropt (rcat [chS '.', rplus dig])])

/-- `[\s\n:]*` -/
def wsColon0 : RE := rstar (.pred (fun c => isSpace c || c = ':'))

/-- `[\s\n:]*\$?[\s\n]*` followed by the dollar-figure group. -/
def metTail : RE := rcat [wsColon0, ropt (chS '$'), sp0, metGroup]

/-- `member(?:ship)?s?` -/
def memberSfx : RE := rcat [litI "member", ropt (litI "ship"), ropt (chI 's')]

/-- `[\s\n:]*[\s\n]*([\d,]+(?:\.\d+)?)\s*(?:million)?` -/
def memTail : RE := rcat [wsColon0, sp0, numGroup2, sp0, ropt (litI "million")]

/-- `[\s\n:]*[\s\n]*([\d,]+(?:\.\d+)?)\s*%` -/
def pctTail : RE := rcat [wsColon0, sp0, numGroup2, sp0, chS '%']

/-- The labelled-metric pattern table (lines 691–712), in dict order. -/
def metricsTable : List (String × RE) :=
  [("total_revenue",
     rcat [litI "Total", sp1, ropt (rcat [litI "net", sp1]), litI "revenue",
       ropt (chI 's'), metTail]),
   ("total_assets", rcat [litI "Total", sp1, litI "assets", metTail]),
   ("total_liabilities", rcat [litI "Total", sp1, litI "liabilities", metTail]),
   ("stockholders_equity",
     rcat [litI "Total", sp1, litI "stockholders",
       ropt (.pred (fun c => c = '\'' || c = '’')), sp1, litI "equity", metTail]),
   ("net_income",
     rcat [litI "Net", sp1, .alt (litI "income") (litI "earnings"), metTail]),
   ("operating_cash_flow",
     rcat [ropt (rcat [litI "Net", sp1]), litI "cash", sp1,
       .alt (rcat [litI "provided", sp1, litI "by"]) (litI "from"), sp1,
       litI "operating", sp1, litI "activities", metTail]),
   ("paid_memberships",
     rcat [.alt (litI "paid") (litI "average"), lazyDot, memberSfx, memTail]),
   ("streaming_members", rcat [litI "streaming", lazyDot, memberSfx, memTail]),
   ("average_memberships",
     rcat [litI "average", lazyDot, ropt (rcat [litI "paying", sp1]),
       memberSfx, memTail]),
   ("arppu",
     rcat [ralt [litI "ARPPU",
         rcat [litI "average", sp1, litI "revenue", sp1, litI "per", lazyDot,
           litI "user"],
         rcat [litI "revenue", sp1, litI "per", lazyDot, litI "member"]],
       wsColon0, ropt (chS '$'), sp0, numGroup2]),
   ("gross_margin_pct",
     rcat [litI "gross", sp1, ropt (rcat [litI "profit", sp1]), litI "margin",
       pctTail]),
   ("operating_margin_pct",
     rcat [litI "operating", sp1, ropt (rcat [litI "profit", sp1]),
       litI "margin", pctTail]),
   ("pretax_margin_pct",
     rcat [litI "pre", ropt (.pred (fun c => c = '-' || isSpace c)), litI "tax",
       sp1, ropt (rcat [litI "profit", sp1]), litI "margin", pctTail])]

/-- `(123)` → `-123` (lines 723–725). -/
def parenToMinus (v : List Char) : List Char :=
  if v.head? = some '(' ∧ v.getLast? = some ')' then
    '-' :: (v.drop 1).dropLast
  else v

/-- The per-metric match processing (lines 714–733): first 10 matches,
stripped, parenthesis-negated, deduplicated preserving order. -/
def metricValues (r : RE) (text : List Char) : List (List Char) :=
  pyDedupFirst ((findAll1 r text).take 10 |>.map (fun v => parenToMinus (pyStrip v)))

/-- ARPPU sub-dict (lines 765–798). -/
structure ArppuData where
  arppu_direct : Option (List ℚ) := none
  arppu_overall : Option (List ℚ) := none
  source : Option String := none
  deriving Repr, DecidableEq

/-- Membership sub-dict (lines 847–883). -/
structure MembershipData where
  memberships_millions : Option (List ℚ) := none
  deriving Repr, DecidableEq

/-- Tagged value of one key of the `extract_financial_data` dict. -/
inductive FinValue : Type where
  | strs : List (List Char) → FinValue
  | pretax : PretaxData → FinValue
  | arppu : ArppuData → FinValue
  | membership : MembershipData → FinValue
  deriving Repr, DecidableEq

/-- The four ARPPU label patterns (lines 772–777). -/
def arppuPatterns : List RE :=
  [rcat [litI "average", sp1, litI "monthly", sp1, litI "revenue", sp1,
     litI "per", sp1, litI "paying", sp1, litI "membership", sp1,
     ropt (.pred (fun c => c = '$' || c = '€')), sp0,
     .grp 1 (rcat [rplus dig, chS '.', dig, dig])],
   rcat [litI "average", sp1, litI "revenue", sp1, litI "per", sp1,
     litI "paid", sp1, litI "member",
     rplus (.pred (fun c => isSpace c || c = ':')),
     ropt (.pred (fun c => c = '$' || c = '€')), sp0,
     .grp 1 (rcat [rplus dig, chS '.', dig, dig])],
   rcat [litI "ARPPU", lazyDot, ropt (.pred (fun c => c = '$' || c = '€')),
     sp0, .grp 1 (rcat [rplus dig, chS '.', dig, dig])],
   rcat [litI "global", sp1, litI "average", lazyDot,
     ropt (.pred (fun c => c = '$' || c = '€')), sp0,
     .grp 1 (rcat [rplus dig, chS '.', dig, dig])]]

/-- `safe_values` (lines 778–786): every in-band parsed match of the
four patterns, in pattern-then-position order. -/
def arppuSafeValues (text : List Char) : List ℚ :=
  (arppuPatterns.flatMap (fun p => (findAll1 p text).filterMap pyFloat?)).filter
    (fun v => 5 ≤ v ∧ v ≤ 25)

/-- The ARPPU sub-dict (lines 788–798): distinct in-band values sorted
ascending capped at 5, and the mode as the overall figure. -/
def arppuOf (text : List Char) : ArppuData :=
  let safe := arppuSafeValues text
  if safe.isEmpty then {}
  else
    { arppu_direct := some ((pySortedSetAsc safe).take 5),
      arppu_overall := some [modeFirst safe],
      source := some "global_mode_from_direct" }

/-- `(?:paid|streaming|total)\s+member(?:ship)?s?\s+(?:of\s+)?([\d.]+)\s+million` -/
def memP1 : RE :=
  rcat [ralt [litI "paid", litI "streaming", litI "total"], sp1, memberSfx,
    sp1, ropt (rcat [litI "of", sp1]), gNumDot 1, sp1, litI "million"]

/-- `([\d.]+)\s+million\s+(?:paid|streaming|total)\s+member(?:ship)?s?` -/
def memP2 : RE :=
  rcat [gNumDot 1, sp1, litI "million", sp1,
    ralt [litI "paid", litI "streaming", litI "total"], sp1, memberSfx]

/-- `(?:paid|streaming)\s+member(?:ship)?s?[\s\n]+(\d{2,3}\.\d{1,2})(?!\d)` -/
def memP3 : RE :=
  rcat [.alt (litI "paid") (litI "streaming"), sp1, memberSfx, sp1,
    .grp 1 (rcat [.rep 2 (some 3) true dig, chS '.', .rep 1 (some 2) true dig]),
    .nlook dig]

/-- The membership sub-dict (lines 847–883).  The unprotected `float()`
calls on `[\d.]+` captures of patterns 1 and 2 can raise, modelled by
the outer `Option`. -/
def membershipOf (text : List Char) : Option MembershipData :=
  let m1 := findAll1 memP1 text
  let m2 := findAll1 memP2 text
  let m3 := findAll1 memP3 text
  (if m1.isEmpty then some none
   else ((m1.take 10).mapM pyFloat?).map some).bind fun k1 =>
  (if m2.isEmpty then some k1
   else ((m2.take 10).mapM pyFloat?).map
     (fun v2 => some (k1.getD [] ++ v2))).map fun k2 =>
  let v3 := (m3.filterMap pyFloat?).filter (fun v => 50 ≤ v ∧ v ≤ 500)
  let k3 := if v3.isEmpty then k2 else some (k2.getD [] ++ v3.take 10)
  ⟨k3.map (fun vs => pySortedSetDesc (vs.filter (fun v => 50 ≤ v ∧ v ≤ 500)))⟩

/-- The labelled-metric entries of the result (the loop of lines
714–733), in table order, keeping only non-empty metrics. -/
def metricsBase (text : List Char) : List (String × FinValue) :=
  metricsTable.filterMap (fun p =>
    if (metricValues p.2 text).isEmpty then none
    else some (p.1, FinValue.strs (metricValues p.2 text)))

/-- `extract_financial_data`: labelled metrics in table order, then the
pretax dict when non-empty, then (always) the ARPPU and membership
dicts.  `none` models a propagating `ValueError` from an unprotected
`float()` call. -/
def extract_financial_data (text : List Char) :
    Option (List (String × FinValue)) :=
  (extract_pretax_margin_data text).bind fun pd =>
  (membershipOf text).map fun md =>
  metricsBase text ++
    (if pd.isEmptyD then [] else [("pretax_margin_data", FinValue.pretax pd)]) ++
    [("arppu_data", FinValue.arppu (arppuOf text)),
     ("membership_data", FinValue.membership md)]

/-!
## Board nominee extraction (`extract_board_nominees`,
sec_search.py lines 1037–1152)

The four candidate patterns are case-sensitive (compiled without
flags); candidates are stopword-filtered, structurally validated,
deduplicated preserving first occurrence, and capped at 15.
-/

/-- The stopword list (lines 1056–1063); checked as substrings of the
lowercased candidate. -/
def nomineeStopwords : List String :=
  ["committee", "board", "director", "nominee", "occupation",
   "principal", "retired", "managing", "election", "proposal",
   "class", "term", "age", "since", "current", "former",
   "independent", "non", "executive", "member", "chairman",
   "president", "officer", "table", "following", "information",
   "experience", "qualifications", "skills", "company", "board of"]

/-- `any(stop in name.lower() for stop in STOPWORDS)` -/
def hasStopword (name : List Char) : Bool :=
  nomineeStopwords.any (fun st => containsSub (pyLower name) st.data)

/-- ASCII `[A-Z]`. -/
def upAZ : RE := .pred (fun c => 'A' ≤ c ∧ c ≤ 'Z')

/-- ASCII `[a-z]+`. -/
def loAZ1 : RE := rplus (.pred (fun c => 'a' ≤ c ∧ c ≤ 'z'))

/-- `[A-Z][a-z]+(?:\s+[A-Z]\.?)?\s+[A-Z][a-z]+` -/
def nameCore : RE :=
  rcat [upAZ, loAZ1, ropt (rcat [sp1, upAZ, ropt (chS '.')]), sp1, upAZ, loAZ1]

/-- `(?:Nominee|Director|Candidate):\s*(name)` -/
def nomP1 : RE :=
  rcat [ralt [litS "Nominee", litS "Director", litS "Candidate"], chS ':',
    sp0, .grp 1 nameCore]

/-- `(name)[,\s]+Age\s+\d{2}` -/
def nomP2 : RE :=
  rcat [.grp 1 nameCore, rplus (.pred (fun c => c = ',' || isSpace c)),
    litS "Age", sp1, dig, dig]

/-- `(name)\s+has\s+(?:served|been)` -/
def nomP3 : RE :=
  rcat [.grp 1 nameCore, sp1, litS "has", sp1,
    .alt (litS "served") (litS "been")]

/-- `([A-Z][a-z]+(?:\s+[A-Z][a-z.]+){1,3})\s{3,}\d{2}` (the
whitespace-table heuristic, lines 1106–1110). -/
def nomTableP : RE :=
  rcat [.grp 1 (rcat [upAZ, loAZ1,
      .rep 1 (some 3) true
        (rcat [sp1, upAZ, rplus (.pred (fun c => ('a' ≤ c ∧ c ≤ 'z') || c = '.'))])]),
    .rep 3 none true sp, dig, dig]

/-- `\s*(Jr\.?|Sr\.?|III|IV)$` -/
def nameSuffixP : RE :=
  rcat [sp0, .grp 1 (ralt [.cat (litS "Jr") (ropt (chS '.')),
    .cat (litS "Sr") (ropt (chS '.')), litS "III", litS "IV"]), .eol]

/-- The final validation/deduplication loop (lines 1121–1152). -/
def nomineeCleanAux : List (List Char) → List (List Char) → List (List Char)
  | _, [] => []
  | seen, n :: rest =>
    let name := pyStrip n
    let words := splitWS name
    if words.length < 2 ∨ 4 < words.length then nomineeCleanAux seen rest
    else if hasStopword name then nomineeCleanAux seen rest
    else if ¬words.all (fun w => w.length ≤ 1 || (w.headD ' ').isUpper) then
      nomineeCleanAux seen rest
    else if name = "The Board".data ∨ name = "Board Of".data ∨
        name = "Our Board".data ∨ name = "The Company".data then
      nomineeCleanAux seen rest
    else if name ∈ seen then nomineeCleanAux seen rest
    else name :: nomineeCleanAux (name :: seen) rest

/-- `extract_board_nominees`. -/
def extract_board_nominees (text : List Char) : List (List Char) :=
  let fromPat (p : RE) (t : List Char) : List (List Char) :=
    (findAll1 p t).filterMap (fun m =>
      if hasStopword m then none else some (pyStrip m))
  let text2 := pyReplace (pyReplace text "&nbsp;".data " ".data) "&#160;".data " ".data
  let fromTable :=
    (findAll1 nomTableP text2).filterMap (fun g =>
      let name := pyStrip (reSub nameSuffixP [] (pyStrip g))
      if 2 ≤ (splitWS name).length ∧ ¬hasStopword name then some name else none)
  let nominees := fromPat nomP1 text ++ fromPat nomP2 text ++ fromPat nomP3 text ++
    fromTable
  (nomineeCleanAux [] nominees).take 15

/-!
## Guidance extraction (`extract_guidance_data`,
sec_search.py lines 1156–1362)

Revenue/margin/EPS range patterns (re.I | re.S), fiscal-period
patterns (re.I only) and an unstructured fallback.  The per-entry
`float()` calls are wrapped in try/except (failed entries are
skipped), but the fallback's `float()` is unprotected — `none` models
that `ValueError`.
-/

/-- One `revenue_range` entry. -/
structure RevEntry where
  low : ℚ
  high : ℚ
  unit : List Char
  range_pct : ℚ
  midpoint : ℚ
  deriving Repr, DecidableEq

/-- One `margin_range` entry. -/
structure MarginEntry where
  low : ℚ
  high : ℚ
  midpoint : ℚ
  range_bps : ℤ
  deriving Repr, DecidableEq

/-- One `eps_range` entry. -/
structure EpsEntry where
  low : ℚ
  high : ℚ
  midpoint : ℚ
  deriving Repr, DecidableEq

/-- The `extract_guidance_data` dict. -/
structure GuidanceData where
  revenue_range : Option (List RevEntry) := none
  margin_range : Option (List MarginEntry) := none
  eps_range : Option (List EpsEntry) := none
  periods : Option (List (List Char)) := none
  confidence : Option String := none
  source : Option String := none
  guidance_values : Option (List ℚ) := none
  deriving Repr, DecidableEq

/-- Dict truthiness of a guidance result (`if not guidance:` in the
orchestrator). -/
def GuidanceData.isEmptyD (g : GuidanceData) : Bool :=
  g.revenue_range = none ∧ g.margin_range = none ∧ g.eps_range = none ∧
  g.periods = none ∧ g.confidence = none ∧ g.source = none ∧
  g.guidance_values = none

/-- `(?:guidance|outlook|expects?|projects?|forecasts?)` -/
def guidanceKw : RE :=
  ralt [litI "guidance", litI "outlook", .cat (litI "expect") (ropt (chI 's')),
    .cat (litI "project") (ropt (chI 's')),
    .cat (litI "forecast") (ropt (chI 's'))]

/-- `(?:to|and|-)` -/
def toAndDash : RE := ralt [litI "to", litI "and", chS '-']

/-- `(billion|million)` as group `i`. -/
def unitGrp (i : Nat) : RE := .grp i (.alt (litI "billion") (litI "million"))

/-- Revenue pattern 1a (line 1196). -/
def revP1 : RE :=
  rcat [.alt (litI "revenue") (litI "sales"), lazyDotAll, guidanceKw,
    lazyDotAll, chS '$', sp0, gNumDot 1, sp0,
    .alt (litI "billion") (litI "million"), lazyDotAll, toAndDash, lazyDotAll,
    chS '$', sp0, gNumDot 2, sp0, unitGrp 3]

/-- Revenue pattern 1b, `between ... and ...` (line 1221). -/
def revP2 : RE :=
  rcat [.alt (litI "revenue") (litI "sales"), lazyDotAll, litI "between",
    lazyDotAll, chS '$', sp0, gNumDot 1, lazyDotAll, litI "and", lazyDotAll,
    chS '$', sp0, gNumDot 2, sp0, unitGrp 3]

/-- `pre-?tax` -/
def preTaxKw : RE := rcat [litI "pre", ropt (chS '-'), litI "tax"]

/-- Margin pattern 2a (line 1247). -/
def marginP1 : RE :=
  rcat [ralt [litI "margin", preTaxKw, litI "gross", litI "operating"],
    lazyDotAll,
    ralt [litI "guidance", litI "outlook", .cat (litI "expect") (ropt (chI 's')),
      .cat (litI "project") (ropt (chI 's'))],
    lazyDotAll, gNumDot 1, sp0, chS '%', lazyDotAll, toAndDash, lazyDotAll,
    gNumDot 2, sp0, chS '%']

/-- Margin pattern 2b (line 1271). -/
def marginP2 : RE :=
  rcat [.alt (litI "margin") preTaxKw, lazyDotAll, litI "between", lazyDotAll,
    gNumDot 1, sp0, chS '%', lazyDotAll, litI "and", lazyDotAll, gNumDot 2,
    sp0, chS '%']

/-- EPS pattern 3a (line 1295). -/
def epsP1 : RE :=
  rcat [.alt (litI "EPS") (rcat [litI "earnings", sp1, litI "per", sp1,
      litI "share"]),
    lazyDotAll,
    ralt [litI "guidance", litI "outlook", .cat (litI "expect") (ropt (chI 's'))],
    lazyDotAll, chS '$', sp0, gNumDot 1, lazyDotAll, toAndDash, lazyDotAll,
    chS '$', sp0, gNumDot 2]

/-- `(\d{4})` as group `i`. -/
def year4 (i : Nat) : RE := .grp i (rcat [dig, dig, dig, dig])

/-- Period pattern `(?:fiscal|FY|full\s+year)\s*(\d{4})`. -/
def periodP1 : RE :=
  rcat [ralt [litI "fiscal", litI "FY", rcat [litI "full", sp1, litI "year"]],
    sp0, year4 1]

/-- Period pattern `(Q[1-4])\s*(?:fiscal|FY)?\s*(\d{4})`. -/
def periodP2 : RE :=
  rcat [.grp 1 (.cat (chI 'Q') (.pred (fun c => '1' ≤ c ∧ c ≤ '4'))), sp0,
    ropt (.alt (litI "fiscal") (litI "FY")), sp0, year4 2]

/-- Period pattern `(?:first|second|third|fourth)\s+quarter.*?(\d{4})`
(no DOTALL). -/
def periodP3 : RE :=
  rcat [ralt [litI "first", litI "second", litI "third", litI "fourth"], sp1,
    litI "quarter", lazyDot, year4 1]

/-- Fallback `guidance.*?([\d.]+)\s*(?:%|billion|million)`. -/
def guidanceFallbackP : RE :=
  rcat [litI "guidance", lazyDotAll, gNumDot 1, sp0,
    ralt [chS '%', litI "billion", litI "million"]]

/-- One revenue entry from a (low, high, unit) capture triple; a failed
float conversion skips the entry (try/except). -/
def revEntryOf (g1 g2 g3 : List Char) : Option RevEntry :=
  (pyFloat? g1).bind fun low =>
  (pyFloat? g2).map fun high =>
  { low := low, high := high, unit := pyLower g3,
    range_pct := if 0 < low then pyRoundTo 2 ((high - low) / low * 100) else 0,
    midpoint := pyRoundTo 2 ((low + high) / 2) }

/-- One margin entry from a (low, high) capture pair. -/
def marginEntryOf (g1 g2 : List Char) : Option MarginEntry :=
  (pyFloat? g1).bind fun low =>
  (pyFloat? g2).map fun high =>
  { low := low, high := high, midpoint := pyRoundTo 2 ((low + high) / 2),
    range_bps := truncQ ((high - low) * 100) }

/-- One EPS entry. -/
def epsEntryOf (g1 g2 : List Char) : Option EpsEntry :=
  (pyFloat? g1).bind fun low =>
  (pyFloat? g2).map fun high =>
  { low := low, high := high, midpoint := pyRoundTo 2 ((low + high) / 2) }

/-- The captures `(group 1, group 2, group 3)` of every match. -/
def findAll3 (r : RE) (s : List Char) :
    List (List Char × List Char × List Char) :=
  (reFindAll r s).map (fun m =>
    ((Re.group m 1).getD [], (Re.group m 2).getD [], (Re.group m 3).getD []))

/-- `extract_guidance_data`. -/
def extract_guidance_data (text : List Char) : Option GuidanceData :=
  let rev1 := findAll3 revP1 text
  let rev2 := findAll3 revP2 text
  let rr : Option (List RevEntry) :=
    if ¬rev1.isEmpty then
      some ((rev1.take 3).filterMap (fun t => revEntryOf t.1 t.2.1 t.2.2))
    else if ¬rev2.isEmpty then
      some ((rev2.take 3).filterMap (fun t => revEntryOf t.1 t.2.1 t.2.2))
    else none
  let mar1 := findAll3 marginP1 text
  let mar2 := findAll3 marginP2 text
  let mr : Option (List MarginEntry) :=
    if ¬mar1.isEmpty then
      some ((mar1.take 3).filterMap (fun t => marginEntryOf t.1 t.2.1))
    else if ¬mar2.isEmpty then
      some ((mar2.take 3).filterMap (fun t => marginEntryOf t.1 t.2.1))
    else none
  let eps1 := findAll3 epsP1 text
  let er : Option (List EpsEntry) :=
    if ¬eps1.isEmpty then
      some ((eps1.take 3).filterMap (fun t => epsEntryOf t.1 t.2.1))
    else none
  let periodStrs :=
    findAll1 periodP1 text ++
    (reFindAll periodP2 text).map (fun m =>
      let g1 := (Re.group m 1).getD []
      let g2 := (Re.group m 2).getD []
      List.intercalate " ".data
        ((if g1.isEmpty then [] else [g1]) ++
          (if g2.isEmpty then [] else [g2]))) ++
    findAll1 periodP3 text
  let pr : Option (List (List Char)) :=
    if periodStrs.isEmpty then none
    else some ((pySortedSetStr periodStrs).take 5)
  if rr.isSome || mr.isSome || er.isSome || pr.isSome then
    some
      { revenue_range := rr, margin_range := mr, eps_range := er,
        periods := pr,
        confidence :=
          some (if rr.isSome || mr.isSome || er.isSome then "high" else "low"),
        source :=
          some (if rr.isSome || mr.isSome || er.isSome then "structured_guidance"
            else "period_mentions_only") }
  else
    let fb := findAll1 guidanceFallbackP text
    if fb.isEmpty then some {}
    else
      ((fb.take 5).mapM pyFloat?).map fun vs =>
        { guidance_values := some vs, confidence := some "very_low",
          source := some "unstructured_mentions" }

/-!
## Dates and the search orchestrator (`sec_search`,
sec_search.py lines 1371–1607)

`datetime.strptime(s, "%Y-%m-%d")` parses a dash-separated calendar
date (1–4 digit year, 1–2 digit month/day, real calendar validation)
and comparisons on the resulting `datetime`s coincide with
lexicographic order on (year, month, day).  The model covers the
post-network part of `sec_search`: the rows of
`data["filings"]["recent"]` are given as input and
`fetch_filing_and_exhibit_html` is abstracted as a function argument.
-/

/-- A calendar date. -/
structure Date where
  y : Nat
  m : Nat
  d : Nat
  deriving Repr, DecidableEq

/-- Gregorian leap year. -/
def isLeap (y : Nat) : Bool := y % 4 = 0 ∧ (y % 100 ≠ 0 ∨ y % 400 = 0)

/-- Days in a month. -/
def daysInMonth (y m : Nat) : Nat :=
  if m = 2 then (if isLeap y then 29 else 28)
  else if m = 4 ∨ m = 6 ∨ m = 9 ∨ m = 11 then 30
  else 31

/-- A real calendar date in `datetime`'s supported range. -/
def validDate (dt : Date) : Bool :=
  1 ≤ dt.y ∧ dt.y ≤ 9999 ∧ 1 ≤ dt.m ∧ dt.m ≤ 12 ∧ 1 ≤ dt.d ∧
    dt.d ≤ daysInMonth dt.y dt.m

/-- `datetime.strptime(s, "%Y-%m-%d")`: `none` models `ValueError`. -/
def parseDate (s : List Char) : Option Date :=
  match s.splitOn '-' with
  | [ys, ms, ds] =>
    if ys.all Char.isDigit ∧ ms.all Char.isDigit ∧ ds.all Char.isDigit ∧
        1 ≤ ys.length ∧ ys.length ≤ 4 ∧ 1 ≤ ms.length ∧ ms.length ≤ 2 ∧
        1 ≤ ds.length ∧ ds.length ≤ 2 then
      let dt : Date := ⟨natOfDigits ys, natOfDigits ms, natOfDigits ds⟩
      if validDate dt then some dt else none
    else none
  | _ => none

/-- `datetime` comparison: lexicographic on (year, month, day). -/
def dateLt (a b : Date) : Bool :=
  a.y < b.y ∨ (a.y = b.y ∧ (a.m < b.m ∨ (a.m = b.m ∧ a.d < b.d)))

/-- Non-strict date comparison. -/
def dateLe (a b : Date) : Bool := !(dateLt b a)

/-- The previous calendar day. -/
def prevDay (dt : Date) : Date :=
  if 2 ≤ dt.d then ⟨dt.y, dt.m, dt.d - 1⟩
  else if 2 ≤ dt.m then ⟨dt.y, dt.m - 1, daysInMonth dt.y (dt.m - 1)⟩
  else ⟨dt.y - 1, 12, 31⟩

/-- The next calendar day. -/
def nextDay (dt : Date) : Date :=
  if dt.d < daysInMonth dt.y dt.m then ⟨dt.y, dt.m, dt.d + 1⟩
  else if dt.m < 12 then ⟨dt.y, dt.m + 1, 1⟩
  else ⟨dt.y + 1, 1, 1⟩

/-- One row of `data["filings"]["recent"]` (the parallel arrays
`form`, `filingDate`, `accessionNumber`, `primaryDocument`, zipped). -/
structure RawRow where
  form : List Char
  fdate : List Char
  accession : List Char
  primaryDoc : List Char
  deriving Repr, DecidableEq

/-- `any(ft.upper() in form.upper() for ft in form_types)` (line 1462). -/
def formOk (form_types : List (List Char)) (form : List Char) : Bool :=
  form_types.any (fun ft => containsSub (pyUpper form) (pyUpper ft))

/-- The filing-selection filter (lines 1456–1484): form-type substring
match, and — when a date filter is active — an inclusive
`[start, end]` range check on the parsed filing date, skipping rows
whose date fails to parse. -/
def secSelect (form_types : List (List Char)) (startB endB : Option Date)
    (hasFilter : Bool) (rows : List RawRow) : List RawRow :=
  rows.filter (fun r =>
    formOk form_types r.form &&
    (if hasFilter then
      match parseDate r.fdate with
      | none => false
      | some d =>
        (match startB with | some s => !(dateLt d s) | none => true) &&
        (match endB with | some e => !(dateLt e d) | none => true)
    else true))

/-- One timeline entry (lines 1583–1594). -/
structure TimelineEntry where
  date : List Char
  form : List Char
  accession : List Char
  url : List Char
  financial_metrics : List (String × FinValue)
  sections : List (String × List Char)
  guidance_data : GuidanceData
  board_nominees : List (List Char)
  sections_found : List String
  metrics_found : List String
  deriving DecidableEq

/-- Outcome of `sec_search` past the submissions fetch. -/
inductive SearchOutcome : Type where
  /-- a structured `{"error": ...}` result -/
  | err : String → SearchOutcome
  /-- an unhandled Python exception escaping `sec_search` -/
  | raised : SearchOutcome
  /-- the assembled result: timeline and `total_found` -/
  | ok : List TimelineEntry → Nat → SearchOutcome
  deriving DecidableEq

/-- The per-filing loop of `sec_search` (lines 1491–1594): fetch,
skip when the filing text is falsy, extract sections, merge the
exhibit, build the combined text (exhibit > earnings-release section >
raw filing), run the extractors, and append the entry when the guard
`sections or metrics or guidance or nominees` is truthy. -/
def processFilings (cik : List Char)
    (fetch : RawRow → List Char × Option (List Char)) :
    List RawRow → List TimelineEntry → Option (List TimelineEntry)
  | [], acc => some acc.reverse
  | f :: rest, acc =>
    let accClean := f.accession.filter (· ≠ '-')
    let docUrl := "https://www.sec.gov/Archives/edgar/data/".data ++ cik ++
      "/".data ++ accClean ++ "/".data ++ f.primaryDoc
    let (filing_text, exhibit_text) := fetch f
    if filing_text.isEmpty then processFilings cik fetch rest acc
    else
      let sections0 := extract_all_sections filing_text f.form
      let exTruthy := truthyS exhibit_text
      let sections :=
        if exTruthy then sections0 ++ [("exhibit_99_1", exhibit_text.getD [])]
        else sections0
      let combined :=
        if exTruthy then exhibit_text.getD [] ++ "\n\n".data ++ filing_text
        else
          match sections0.lookup "earnings_release" with
          | some er => er ++ "\n\n".data ++ filing_text
          | none => filing_text
      match extract_financial_data combined with
      | none => none
      | some metrics =>
        let guidanceO : Option GuidanceData :=
          if containsSub (pyUpper f.form) "8-K".data then
            match
              (match sections.lookup "guidance_section" with
               | some gs => extract_guidance_data gs
               | none => some {}) with
            | none => none
            | some g1 =>
              if g1.isEmptyD then extract_guidance_data combined else some g1
          else some {}
        match guidanceO with
        | none => none
        | some guidance =>
          let nominees :=
            if containsSub (pyUpper f.form) "DEF 14A".data then
              extract_board_nominees filing_text
            else []
          if ¬sections.isEmpty ∨ ¬metrics.isEmpty ∨ ¬guidance.isEmptyD ∨
              ¬nominees.isEmpty then
            processFilings cik fetch rest
              ({ date := f.fdate, form := f.form, accession := f.accession,
                 url := docUrl, financial_metrics := metrics,
                 sections := sections, guidance_data := guidance,
                 board_nominees := nominees,
                 sections_found := sections.map Prod.fst,
                 metrics_found := metrics.map Prod.fst } :: acc)
          else processFilings cik fetch rest acc

/-- The post-network part of `sec_search` (lines 1438–1607): parse the
date bounds (a malformed bound is a structured error), select the raw
filings, process them in order, and return the result with
`total_found = len(timeline)`. -/
def sec_search_core (cik : List Char) (form_types : List (List Char))
    (start_date end_date : Option (List Char)) (rows : List RawRow)
    (fetch : RawRow → List Char × Option (List Char)) : SearchOutcome :=
  let hasFilter := truthyS start_date || truthyS end_date
  let startP : Option (Option Date) :=
    if truthyS start_date then (parseDate (start_date.getD [])).map some
    else some none
  let endP : Option (Option Date) :=
    if truthyS end_date then (parseDate (end_date.getD [])).map some
    else some none
  if ¬hasFilter then
    match processFilings cik fetch (secSelect form_types none none false rows) [] with
    | none => .raised
    | some tl => .ok tl tl.length
  else
    match startP, endP with
    | some sB, some eB =>
      (match processFilings cik fetch (secSelect form_types sB eB true rows) [] with
       | none => .raised
       | some tl => .ok tl tl.length)
    | _, _ => .err "Invalid date format. Use YYYY-MM-DD"

/-!
## Concrete inputs used by the claim theorems
-/

/-- C3: one-line earnings text with the margin, the delta qualifier and
the "well above plan" phrase. -/
def marginText : List Char :=
  "The company reported a pretax profit margin of 12.3%, up 0.3 percentage points, which was well above plan.".data

/-- C5: three mentions of $17.81 and one of $15.50 under the ARPPU
label. -/
def arppuText : List Char :=
  "ARPPU was $17.81. ARPPU was $17.81. ARPPU was $17.81. ARPPU was $15.50.".data

/-- C6: a structured revenue guidance range. -/
def guidanceText : List Char :=
  "revenue guidance of $5.0 billion to $5.2 billion".data

/-- C9: proxy-statement text with the two section-header phrases and a
whitespace table of names followed by two-digit ages. -/
def nomineeText : List Char :=
  ("Nominating Committee      65\nPrincipal Occupation      60\nThomas J. Carley      65\nAnthony Meeker      73").data

/-- C10: a filing text whose captured margin token `1.2.3` makes the
unprotected `float()` call raise. -/
def badFloatText : List Char := "pretax profit margin of 1.2.3%".data

/-- C1: a filing row matching the requested form and date range. -/
def c1Row : RawRow :=
  ⟨"10-K".data, "2024-05-05".data, "0001-23-456789".data, "doc.htm".data⟩

/-- C1: the timeline entry the pipeline appends for a filing whose text
matches no extractor pattern at all. -/
def c1Entry : TimelineEntry :=
  { date := "2024-05-05".data, form := "10-K".data,
    accession := "0001-23-456789".data,
    url := "https://www.sec.gov/Archives/edgar/data/0000000042/000123456789/doc.htm".data,
    financial_metrics := [("arppu_data", .arppu {}), ("membership_data", .membership {})],
    sections := [], guidance_data := {}, board_nominees := [],
    sections_found := [], metrics_found := ["arppu_data", "membership_data"] }

/-- C2: a cache holding a non-empty filing text and a non-empty exhibit
text under the derived exhibit name. -/
def c2Cache : List Char → Option (List Char) := fun x =>
  if x = "a.txt".data then some "FILING".data
  else if x = "a_ex991.txt".data then some "EXHIBIT".data
  else none

/-- C2 counterexample cache: the exhibit cache entry exists but is
empty. -/
def c2CacheEmptyEx : List Char → Option (List Char) := fun x =>
  if x = "a.txt".data then some "A".data
  else if x = "a_ex991.txt".data then some []
  else none

/-- C2: a network environment whose primary fetch succeeds. -/
def c2EnvA : FetchEnv :=
  { primary := [.ok 200 "NET-A".data], exhibitResp := fun _ => .exn,
    findExhibitHref := fun _ => none, cleanHtml := fun s => s }

/-- C2: a network environment that differs from `c2EnvA` in every
response. -/
def c2EnvB : FetchEnv :=
  { primary := [.exn], exhibitResp := fun _ => .ok 200 [],
    findExhibitHref := fun _ => some "x.htm".data, cleanHtml := fun _ => [] }

/-- C4 amended witness: one registry row. -/
def c4Rows : List RegRow := [⟨some 320193, "Apple Inc.".data, "AAPL".data⟩]

/-- C4 amended witness: archive lines with digit-only ids. -/
def c4Data : List Char := "APPLE INC:320193\nBANANA:17".data

/-- C4: a registry row's `int(row[0])` value is a well-formed CIK
field. -/
def regRowGood (r : RegRow) : Bool :=
  match r.cikField with
  | some i => decide (0 ≤ i ∧ i < 10 ^ 10)
  | none => true

/-- C4: the id field of an archive line (text after the first colon,
stripped) is a digit string of at most 10 characters. -/
def archiveLineGood (line : List Char) : Bool :=
  (pyStrip (splitColon1 line).2).all Char.isDigit &&
    decide ((pyStrip (splitColon1 line).2).length ≤ 10)

/-- C7: an earlier row whose name matches and a later row whose ticker
matches the query exactly. -/
def c7Rows : List RegRow :=
  [⟨some 1, "Apple Inc".data, "AAPL".data⟩,
   ⟨some 2, "Banana Fruit".data, "APPL".data⟩]

/-- C7 amended: the row predicate of the scan — the row has a parseable
CIK field and matches by exact upper-cased ticker or by doubly-cleaned
name. -/
def rowMatches (company_clean ticker_upper : List Char) (r : RegRow) : Bool :=
  r.cikField.isSome &&
    (pyUpper (pyStrip r.ticker) == ticker_upper ||
      company_clean == clean_company_name (clean_company_name (pyLower r.name)))

/-- C8 witness rows. -/
def c8r1 : RawRow := ⟨"10-K".data, "2024-03-01".data, "a1".data, "d1".data⟩
/-- C8 witness rows. -/
def c8r2 : RawRow := ⟨"10-K".data, "2024-03-31".data, "a2".data, "d2".data⟩
/-- C8 witness rows. -/
def c8r3 : RawRow := ⟨"10-K".data, "2024-02-29".data, "a3".data, "d3".data⟩
/-- C8 witness rows. -/
def c8r4 : RawRow := ⟨"10-K".data, "2024-04-01".data, "a4".data, "d4".data⟩

/-- C8 witness rows: boundary dates, one day before the start and one
day after the end (2024 is a leap year, so the day before 2024-03-01 is
2024-02-29). -/
def c8Rows : List RawRow := [c8r1, c8r2, c8r3, c8r4]

/-- C5 witness: the full `extract_financial_data` result on
`arppuText`. -/
def c5Dict : List (String × FinValue) :=
  [("arppu_data",
    .arppu { arppu_direct := some [31/2, 1781/100],
             arppu_overall := some [1781/100],
             source := some "global_mode_from_direct" }),
   ("membership_data", .membership {})]

/-!
## Helper lemmas
-/

theorem aux_lookup_append (l₁ l₂ : List (String × FinValue)) (k : String) :
    (l₁ ++ l₂).lookup k =
      match l₁.lookup k with
      | some v => some v
      | none => l₂.lookup k := by
  induction l₁ with
  | nil => simp [List.lookup]
  | cons p rest ih =>
    by_cases h : k == p.1
    · simp [List.lookup, h]
    · simp only [List.cons_append, List.lookup, h]
      exact ih

theorem aux_lookup_table_none (tbl : List (String × RE)) (text : List Char)
    (k : String) (hk : ∀ p ∈ tbl, p.1 ≠ k) :
    (tbl.filterMap (fun p =>
      if (metricValues p.2 text).isEmpty then none
      else some (p.1, FinValue.strs (metricValues p.2 text)))).lookup k = none := by
  induction tbl with
  | nil => simp [List.lookup]
  | cons p rest ih =>
    have hp : p.1 ≠ k := hk p (by simp)
    have hr : ∀ q ∈ rest, q.1 ≠ k := fun q hq => hk q (by simp [hq])
    have hbk : (k == p.1) = false := by
      simpa [beq_iff_eq] using fun e => hp e.symm
    rw [List.filterMap_cons]
    by_cases h : (metricValues p.2 text).isEmpty
    · simp only [h, if_true, reduceIte]
      exact ih hr
    · have h' : (metricValues p.2 text).isEmpty = false := by simpa using h
      simp only [h', Bool.false_eq_true, reduceIte]
      simp only [List.lookup, hbk]
      exact ih hr

theorem aux_dedup_mem (l : List ℚ) (seen : List ℚ) (v : ℚ) :
    v ∈ pyDedupFirstAux seen l ↔ v ∈ l ∧ v ∉ seen := by
  induction l generalizing seen with
  | nil => simp [pyDedupFirstAux]
  | cons x rest ih =>
    by_cases hx : x ∈ seen
    · simp only [pyDedupFirstAux, if_pos hx, ih]
      constructor
      · rintro ⟨h1, h2⟩
        exact ⟨List.mem_cons_of_mem _ h1, h2⟩
      · rintro ⟨h1, h2⟩
        rcases List.mem_cons.1 h1 with rfl | h1
        · exact absurd hx h2
        · exact ⟨h1, h2⟩
    · simp only [pyDedupFirstAux, if_neg hx]
      constructor
      · intro h
        rcases List.mem_cons.1 h with rfl | h
        · exact ⟨List.mem_cons_self _ _, hx⟩
        · obtain ⟨h1, h2⟩ := (ih (x :: seen)).1 h
          exact ⟨List.mem_cons_of_mem _ h1,
            fun hs => h2 (List.mem_cons_of_mem _ hs)⟩
      · rintro ⟨h1, h2⟩
        rcases List.mem_cons.1 h1 with rfl | h1
        · exact List.mem_cons_self _ _
        · by_cases hv : v = x
          · subst hv; exact List.mem_cons_self _ _
          · refine List.mem_cons_of_mem _ ((ih (x :: seen)).2 ⟨h1, ?_⟩)
            intro hs
            rcases List.mem_cons.1 hs with h | h
            · exact hv h
            · exact h2 h

theorem aux_dedup_nodup (l : List ℚ) (seen : List ℚ) :
    (pyDedupFirstAux seen l).Nodup := by
  induction l generalizing seen with
  | nil => simp [pyDedupFirstAux]
  | cons x rest ih =>
    by_cases hx : x ∈ seen
    · simpa [pyDedupFirstAux, hx] using ih seen
    · simp only [pyDedupFirstAux, if_neg hx, List.nodup_cons]
      refine ⟨fun hmem => ?_, ih (x :: seen)⟩
      exact ((aux_dedup_mem rest (x :: seen) x).1 hmem).2 (by simp)

theorem aux_fold_pick (l : List ℚ) (xs : List ℚ) :
    ∀ b : ℚ,
      (xs.foldl (fun best v => if l.count best < l.count v then v else best) b = b ∨
        xs.foldl (fun best v => if l.count best < l.count v then v else best) b ∈ xs) ∧
      l.count b ≤
        l.count (xs.foldl (fun best v => if l.count best < l.count v then v else best) b) ∧
      ∀ v ∈ xs,
        l.count v ≤
          l.count (xs.foldl (fun best v => if l.count best < l.count v then v else best) b) := by
  induction xs with
  | nil => intro b; simp
  | cons x rest ih =>
    intro b
    simp only [List.foldl_cons]
    obtain ⟨hm, hb, hall⟩ := ih (if l.count b < l.count x then x else b)
    refine ⟨?_, ?_, ?_⟩
    · rcases hm with hm | hm
      · rw [hm]
        by_cases hbx : l.count b < l.count x
        · rw [if_pos hbx]; exact Or.inr (List.mem_cons_self _ _)
        · rw [if_neg hbx]; exact Or.inl rfl
      · exact Or.inr (List.mem_cons_of_mem _ hm)
    · refine le_trans ?_ hb
      by_cases hbx : l.count b < l.count x
      · rw [if_pos hbx]; exact le_of_lt hbx
      · rw [if_neg hbx]
    · intro v hv
      rcases List.mem_cons.1 hv with rfl | hv
      · refine le_trans ?_ hb
        by_cases hbx : l.count b < l.count v
        · rw [if_pos hbx]
        · rw [if_neg hbx]; omega
      · exact hall v hv

theorem aux_mode_max (l : List ℚ) (hl : l ≠ []) :
    modeFirst l ∈ l ∧ ∀ v ∈ l, l.count v ≤ l.count (modeFirst l) := by
  have hmem : ∀ w : ℚ, w ∈ pyDedupFirst l ↔ w ∈ l := by
    intro w
    simpa [pyDedupFirst] using aux_dedup_mem l [] w
  have hne : pyDedupFirst l ≠ [] := by
    obtain ⟨a, rest, rfl⟩ := List.exists_cons_of_ne_nil hl
    intro h
    have ha := (hmem a).2 (List.mem_cons_self _ _)
    rw [h] at ha
    exact List.not_mem_nil a ha
  obtain ⟨x, xs, heq⟩ := List.exists_cons_of_ne_nil hne
  have hx : x ∈ l := (hmem x).1 (heq ▸ List.mem_cons_self _ _)
  have hxs : ∀ v ∈ xs, v ∈ l := fun v hv =>
    (hmem v).1 (heq ▸ List.mem_cons_of_mem _ hv)
  obtain ⟨hm, hb, hall⟩ := aux_fold_pick l xs x
  constructor
  · simp only [modeFirst, heq]
    rcases hm with hm | hm
    · rw [hm]; exact hx
    · exact hxs _ hm
  · intro v hv
    have hvd := (hmem v).2 hv
    rw [heq] at hvd
    simp only [modeFirst, heq]
    rcases List.mem_cons.1 hvd with rfl | hvd
    · exact hb
    · exact hall v hvd

theorem aux_nominee_no_stopword (l : List (List Char)) :
    ∀ (seen : List (List Char)) (name : List Char),
      name ∈ nomineeCleanAux seen l → hasStopword name = false := by
  induction l with
  | nil => intro seen name h; simp [nomineeCleanAux] at h
  | cons n rest ih =>
    intro seen name h
    simp only [nomineeCleanAux] at h
    split_ifs at h with h1 h2 h3 h4 h5 <;>
      first
        | exact ih _ name h
        | (rcases List.mem_cons.1 h with rfl | h
           · simpa using h2
           · exact ih _ name h)

theorem aux_digitCh_isDigit (n : Nat) (h : n < 10) : (digitCh n).isDigit = true := by
  interval_cases n <;> decide

theorem aux_natDecStrAux_good :
    ∀ (fuel n k : Nat), n < 10 ^ k → 1 ≤ k → n < fuel →
      (natDecStrAux fuel n).length ≤ k ∧
      (natDecStrAux fuel n).all Char.isDigit = true := by
  intro fuel
  induction fuel with
  | zero => intro n k _ _ h3; omega
  | succ f ih =>
    intro n k h1 h2 h3
    by_cases h : n < 10
    · refine ⟨by simpa [natDecStrAux, h] using h2, ?_⟩
      simp [natDecStrAux, h, aux_digitCh_isDigit n h]
    · have hk : 2 ≤ k := by
        by_contra hk
        have : k = 1 := by omega
        subst this
        simp at h1
        omega
      have hdiv : n / 10 < 10 ^ (k - 1) := by
        have h10 : 10 ^ (k - 1) * 10 = 10 ^ k := by
          rw [← pow_succ]
          congr 1
          omega
        exact Nat.div_lt_of_lt_mul (by omega)
      have hfuel : n / 10 < f := by
        have := Nat.div_lt_self (show 0 < n by omega) (show 1 < 10 by omega)
        omega
      obtain ⟨ihl, ihd⟩ := ih (n / 10) (k - 1) hdiv (by omega) hfuel
      constructor
      · simp only [natDecStrAux, if_neg h, List.length_append, List.length_cons,
          List.length_nil]
        omega
      · simp only [natDecStrAux, if_neg h, List.all_append, ihd, Bool.true_and,
          List.all_cons, List.all_nil, Bool.and_true]
        exact aux_digitCh_isDigit _ (Nat.mod_lt _ (by omega))

theorem aux_replicate_zero_digits (n : Nat) :
    (List.replicate n '0').all Char.isDigit = true := by
  induction n with
  | zero => decide
  | succ m ih => simp [List.replicate_succ, ih]

theorem aux_pyZfill_good (s : List Char) (h1 : s.all Char.isDigit = true)
    (h2 : s.length ≤ 10) :
    (pyZfill 10 s).length = 10 ∧ (pyZfill 10 s).all Char.isDigit = true := by
  cases s with
  | nil => exact ⟨by simp [pyZfill], by simp [pyZfill, aux_replicate_zero_digits 10]⟩
  | cons c rest =>
    have hc : c.isDigit = true := by
      simp only [List.all_cons, Bool.and_eq_true] at h1
      exact h1.1
    have hrest : rest.all Char.isDigit = true := by
      simp only [List.all_cons, Bool.and_eq_true] at h1
      exact h1.2
    have hsign : ¬(c = '+' ∨ c = '-') := by
      rintro (rfl | rfl) <;> exact absurd hc (by decide)
    constructor
    · simp only [pyZfill, if_neg hsign, List.length_append, List.length_replicate,
        List.length_cons]
      simp only [List.length_cons] at h2
      omega
    · simp only [pyZfill, if_neg hsign, List.all_append, List.all_cons,
        aux_replicate_zero_digits, hc, hrest, Bool.and_self, Bool.true_and]

theorem aux_takeWhile_digits (z : List Char) (h : z.all Char.isDigit = true) :
    z.takeWhile (· ≠ ':') = z := by
  induction z with
  | nil => rfl
  | cons c rest ih =>
    simp only [List.all_cons, Bool.and_eq_true] at h
    have hne : c ≠ ':' := fun e => absurd (e ▸ h.1) (by decide)
    have hd : (decide (c ≠ ':')) = true := decide_eq_true hne
    simp only [List.takeWhile_cons, hd, if_true]
    rw [ih h.2]

theorem aux_dateLt_irrefl (d : Date) : dateLt d d = false := by
  simp [dateLt]

theorem aux_prevDay_lt (s : Date) (h : validDate s = true) :
    dateLt (prevDay s) s = true := by
  obtain ⟨y, m, d⟩ := s
  simp only [validDate, decide_eq_true_eq] at h
  unfold prevDay
  split_ifs with h1 h2 <;>
    (simp only [dateLt, decide_eq_true_eq]; dsimp only at *)
  · exact Or.inr ⟨trivial, Or.inr ⟨trivial, by omega⟩⟩
  · exact Or.inr ⟨trivial, Or.inl (by omega)⟩
  · exact Or.inl (by omega)

theorem aux_lt_nextDay (e : Date) (h : validDate e = true) :
    dateLt e (nextDay e) = true := by
  obtain ⟨y, m, d⟩ := e
  simp only [validDate, decide_eq_true_eq] at h
  unfold nextDay
  split_ifs with h1 h2 <;>
    (simp only [dateLt, decide_eq_true_eq]; dsimp only at *)
  · exact Or.inr ⟨trivial, Or.inr ⟨trivial, by omega⟩⟩
  · exact Or.inr ⟨trivial, Or.inl (by omega)⟩
  · exact Or.inl (by omega)

theorem aux_resolverGo_inv (cc tu : List Char) :
    ∀ (rows : List RegRow) (c t : List Char),
      resolverGo cc tu rows = some (c, t) →
      ∃ r ∈ rows, ∃ i : Int, r.cikField = some i ∧
        c = pyZfill 10 (intDecStr i) := by
  intro rows
  induction rows with
  | nil => intro c t h; simp [resolverGo] at h
  | cons r rest ih =>
    intro c t h
    cases hc : r.cikField with
    | none =>
      simp only [resolverGo, hc] at h
      obtain ⟨r', hr', hi⟩ := ih c t h
      exact ⟨r', List.mem_cons_of_mem _ hr', hi⟩
    | some i =>
      simp only [resolverGo, hc] at h
      split_ifs at h with h1 h2
      · obtain ⟨h3, h4⟩ := Prod.mk.injEq .. ▸ Option.some.inj h
        exact ⟨r, List.mem_cons_self _ _, i, hc, h3.symm⟩
      · obtain ⟨h3, h4⟩ := Prod.mk.injEq .. ▸ Option.some.inj h
        exact ⟨r, List.mem_cons_self _ _, i, hc, h3.symm⟩
      · obtain ⟨r', hr', hi⟩ := ih c t h
        exact ⟨r', List.mem_cons_of_mem _ hr', hi⟩

theorem aux_archiveScan_inv (sl : List Char) :
    ∀ (lines : List (List Char)) (c : List Char),
      archiveScan sl lines = some c → ∃ line ∈ lines, c = archiveIdOf line := by
  intro lines
  induction lines with
  | nil => intro c h; simp [archiveScan] at h
  | cons line rest ih =>
    intro c h
    simp only [archiveScan] at h
    split_ifs at h with h1 h2 <;>
      first
        | exact ⟨line, List.mem_cons_self _ _, (Option.some.inj h).symm⟩
        | (obtain ⟨line', hl', hc⟩ := ih c h
           exact ⟨line', List.mem_cons_of_mem _ hl', hc⟩)

theorem aux_archiveIdOf_good (line : List Char)
    (hg : archiveLineGood line = true) :
    (archiveIdOf line).length = 10 ∧
    (archiveIdOf line).all Char.isDigit = true := by
  simp only [archiveLineGood, Bool.and_eq_true, decide_eq_true_eq] at hg
  obtain ⟨hz1, hz2⟩ := aux_pyZfill_good _ hg.1 hg.2
  unfold archiveIdOf
  rw [aux_takeWhile_digits _ hz2]
  exact ⟨hz1, hz2⟩

theorem aux_intDecStr_good (i : Int) (h0 : 0 ≤ i) (h1 : i < 10 ^ 10) :
    (intDecStr i).length ≤ 10 ∧ (intDecStr i).all Char.isDigit = true := by
  have hneg : ¬i < 0 := by omega
  have htn : i.toNat < 10 ^ 10 := by omega
  simp only [intDecStr, if_neg hneg, natDecStr]
  exact aux_natDecStrAux_good (i.toNat + 1) i.toNat 10 htn (by omega) (by omega)

/-!
## Claim theorems
-/

/-- C1: a filing whose text matches no extractor pattern at all (empty
section map, no metric/pretax/ARPPU/membership values, no guidance, no
nominees) is nevertheless appended to the timeline, because
`extract_financial_data` always returns the two keys `arppu_data` and
`membership_data` and the guard `sections or metrics or guidance or
nominees` is therefore always truthy: on the one-filing input with
filing text `"xyz"` the pipeline returns a one-entry timeline with
`total_found = 1` even though every extractor produced no output,
contradicting the claim that such a filing is dropped.  (The claim's
other half — `total_found` equals the number of appended entries —
does hold: the source returns `len(timeline)`.) -/
theorem c1_zero_signal_filing_appended :
    sec_search_core "0000000042".data ["10-K".data] (some "2024-01-01".data)
      (some "2024-12-31".data) [c1Row] (fun _ => ("xyz".data, none)) =
      .ok [c1Entry] 1 ∧
    extract_all_sections "xyz".data "10-K".data = [] ∧
    extract_financial_data "xyz".data =
      some [("arppu_data", .arppu {}), ("membership_data", .membership {})] ∧
    arppuOf "xyz".data = {} ∧
    membershipOf "xyz".data = some {} ∧
    extract_pretax_margin_data "xyz".data = some {} ∧
    extract_board_nominees "xyz".data = [] := by
  refine ⟨?_, ?_, ?_, ?_, ?_, ?_, ?_⟩ <;> decide

/-- C6: on "revenue guidance of $5.0 billion to $5.2 billion" the
guidance extractor returns a `revenue_range` entry with low 5.0, high
5.2, midpoint 5.1 and range_pct 4.0, and the result carries confidence
"high" with source "structured_guidance" because a structured numeric
range was found. -/
theorem c6_guidance_revenue_range :
    extract_guidance_data guidanceText =
      some
        { revenue_range :=
            some [{ low := 5, high := 26/5, unit := "billion".data,
                    range_pct := 4, midpoint := 51/10 }],
          confidence := some "high", source := some "structured_guidance" } := by
  decide

/-- C9: on proxy text containing the phrases "Nominating Committee" and
"Principal Occupation" and whitespace-table lines where "Thomas J.
Carley" and "Anthony Meeker" are followed by a two-digit age field, the
board-nominee extractor returns exactly those two names; moreover, for
every input text, the stopword filter makes "Nominating Committee" and
"Principal Occupation" impossible outputs. -/
theorem c9_board_nominee_stopwords :
    extract_board_nominees nomineeText =
      ["Thomas J. Carley".data, "Anthony Meeker".data] ∧
    (∀ t : List Char, "Nominating Committee".data ∉ extract_board_nominees t) ∧
    (∀ t : List Char, "Principal Occupation".data ∉ extract_board_nominees t) := by
  refine ⟨by decide, ?_, ?_⟩
  · intro t hmem
    have h := aux_nominee_no_stopword _ _ _ (List.mem_of_mem_take hmem)
    exact absurd h (by decide)
  · intro t hmem
    have h := aux_nominee_no_stopword _ _ _ (List.mem_of_mem_take hmem)
    exact absurd h (by decide)

/-- C3: on a one-line text containing "pretax profit margin of 12.3%,
up 0.3 percentage points ... well above plan" the margin comparator
returns actual_pct = 12.3, beat_or_miss = "beat", difference_bps = 30,
guidance_high_pct = 12.0 and confidence = "high"; and in general, in
both the tjx-style and the explicit-difference branches, "above"
yields "beat" with guidance bound = actual − delta and "below" yields
"miss" with guidance bound = actual + delta (the bound is stored
rounded to one decimal, as in the source). -/
theorem c3_margin_comparator :
    extract_pretax_margin_data marginText =
      some { actual_pct := some (123/10), beat_or_miss := some "beat",
             confidence := some "high",
             source := some "tjx_style_above_below_plan",
             difference_bps := some 30, guidance_high_pct := some 12 } ∧
    (∀ a d : ℚ,
      (tjxFinish a "above".data (some d)).beat_or_miss = some "beat" ∧
      (tjxFinish a "above".data (some d)).guidance_high_pct =
        some (pyRoundTo 1 (a - d)) ∧
      (tjxFinish a "below".data (some d)).beat_or_miss = some "miss" ∧
      (tjxFinish a "below".data (some d)).guidance_high_pct =
        some (pyRoundTo 1 (a + d)) ∧
      (explicitFinish a "above".data d).beat_or_miss = some "beat" ∧
      (explicitFinish a "above".data d).guidance_high_pct =
        some (pyRoundTo 1 (a - d)) ∧
      (explicitFinish a "below".data d).beat_or_miss = some "miss" ∧
      (explicitFinish a "below".data d).guidance_high_pct =
        some (pyRoundTo 1 (a + d))) := by
  constructor
  · decide
  · intro a d
    have habove : ("above".data = "above".data) = True := by simp
    have hbelow : ("below".data = "above".data) = False := by
      simp only [eq_iff_iff, iff_false]
      decide
    refine ⟨?_, ?_, ?_, ?_, ?_, ?_, ?_, ?_⟩ <;>
      simp [tjxFinish, explicitFinish, habove, hbelow]

/-- C2 counterexample: with the filing cached non-empty and the exhibit
cache entry present but empty, the fetcher returns a null exhibit — not
the cached (empty) exhibit text — so "returns the cached exhibit text
(or null when no exhibit cache entry exists)" fails: the entry exists,
yet null is returned. -/
theorem c2_counterexample :
    (fetch_filing_and_exhibit_html c2EnvA "c".data "a".data true
      (some "a.txt".data) c2CacheEmptyEx).1.2 = none ∧
    c2CacheEmptyEx (exhibitName "a.txt".data) = some [] ∧
    (fetch_filing_and_exhibit_html c2EnvA "c".data "a".data true
      (some "a.txt".data) c2CacheEmptyEx).1.2 ≠
      c2CacheEmptyEx (exhibitName "a.txt".data) := by
  refine ⟨?_, ?_, ?_⟩ <;> decide

/-- C4 counterexample: on the archive line "FOO:12:34" (an id field
with an embedded colon), resolution returns "0000012" — a 7-character
string — so the invariant "any resolved registry identifier is a
10-character zero-padded numeric string" fails as stated. -/
theorem c4_counterexample :
    get_cik_from_archive "Foo".data "FOO:12:34".data = some "0000012".data ∧
    ("0000012".data).length ≠ 10 := by
  refine ⟨?_, ?_⟩ <;> decide

/-- C7 counterexample: with a first row whose normalized name matches
the query name and a second row whose ticker equals the query ticker
exactly, the resolver returns the FIRST row's identifier via the name
match — the later exact ticker match does not win — refuting "an exact
ticker match wins immediately [over name matching anywhere in the
table]". -/
theorem c7_counterexample :
    get_cik_from_ticker_or_name (some "Apple".data) (some "APPL".data) c7Rows =
      some ("0000000001".data, "AAPL".data) ∧
    pyUpper (pyStrip (c7Rows.get ⟨1, by decide⟩).ticker) =
      pyUpper (pyStrip "APPL".data) ∧
    get_cik_from_ticker_or_name (some "Apple".data) (some "APPL".data) c7Rows ≠
      some ("0000000002".data, "APPL".data) := by
  refine ⟨?_, ?_, ?_⟩ <;> decide

/-- C10 counterexample: on text whose matched margin token is "1.2.3"
the unprotected `float()` call raises `ValueError`, so
`extract_financial_data` does not return a mapping at all — refuting
"for every input text ... returns a mapping". -/
theorem c10_counterexample :
    extract_financial_data badFloatText = none := by
  decide

/-- C2 (amended): when disk caching is enabled and the filing cache
entry for the key is non-empty, the fetcher returns the cached filing
text paired with the cached exhibit text when that is non-empty (null
when the exhibit cache entry is missing or empty), issues zero network
requests, and the result is independent of the network environment. -/
theorem c2_cache_hit_blocks_network (env1 env2 : FetchEnv)
    (cik acc f s : List Char) (cache : List Char → Option (List Char))
    (hf : f ≠ []) (hc : cache f = some s) (hs : s ≠ []) :
    fetch_filing_and_exhibit_html env1 cik acc true (some f) cache =
      ((s, match cache (exhibitName f) with
           | some e => if e.isEmpty then none else some e
           | none => none), 0) ∧
    fetch_filing_and_exhibit_html env1 cik acc true (some f) cache =
      fetch_filing_and_exhibit_html env2 cik acc true (some f) cache := by
  have hf' : f.isEmpty = false := by
    cases f
    · exact absurd rfl hf
    · rfl
  have hs' : s.isEmpty = false := by
    cases s
    · exact absurd rfl hs
    · rfl
  have key : ∀ env : FetchEnv,
      fetch_filing_and_exhibit_html env cik acc true (some f) cache =
        ((s, match cache (exhibitName f) with
             | some e => if e.isEmpty then none else some e
             | none => none), 0) := by
    intro env
    unfold fetch_filing_and_exhibit_html
    cases hce : cache (exhibitName f) with
    | none => simp [truthyS, hc, hce, hf, hs]
    | some e =>
      cases e with
      | nil => simp [truthyS, hc, hce, hf, hs]
      | cons c cs => simp [truthyS, hc, hce, hf, hs]
  exact ⟨key env1, (key env1).trans (key env2).symm⟩

/-- C2 witness: a concrete cache hit with both entries present and
non-empty, under two network environments that disagree on every
response. -/
theorem c2_cache_hit_witness :
    ("a.txt".data ≠ []) ∧ c2Cache "a.txt".data = some "FILING".data ∧
    ("FILING".data ≠ []) ∧
    fetch_filing_and_exhibit_html c2EnvA "c".data "a".data true
      (some "a.txt".data) c2Cache = (("FILING".data, some "EXHIBIT".data), 0) ∧
    fetch_filing_and_exhibit_html c2EnvA "c".data "a".data true
      (some "a.txt".data) c2Cache =
    fetch_filing_and_exhibit_html c2EnvB "c".data "a".data true
      (some "a.txt".data) c2Cache := by
  refine ⟨by decide, by decide, by decide, ?_, ?_⟩
  · have h := (c2_cache_hit_blocks_network c2EnvA c2EnvB "c".data "a".data
      "a.txt".data "FILING".data c2Cache (by decide) (by decide) (by decide)).1
    exact h.trans (by decide)
  · exact (c2_cache_hit_blocks_network c2EnvA c2EnvB "c".data "a".data
      "a.txt".data "FILING".data c2Cache (by decide) (by decide) (by decide)).2

/-- C4 (amended): a resolved identifier is a 10-character all-digit
zero-padded string whenever the inputs are well-formed — for the
structured registry, whenever every row's CIK field is a nonnegative
integer below 10^10; for the flat-file archive, whenever every line's
id field (the text after the first colon, stripped) is a digit string
of at most 10 characters.  (As stated over arbitrary inputs the claim
fails, see the counterexample: an id field with an embedded colon
yields a 7-character string.) -/
theorem c4_resolved_id_ten_digits (rows : List RegRow)
    (cn ts : Option (List Char)) (q data : List Char)
    (h1 : rows.all regRowGood = true)
    (h2 : (data.splitOn '\n').all archiveLineGood = true) :
    (∀ c t, get_cik_from_ticker_or_name cn ts rows = some (c, t) →
      c.length = 10 ∧ c.all Char.isDigit = true) ∧
    (∀ c, get_cik_from_archive q data = some c →
      c.length = 10 ∧ c.all Char.isDigit = true) := by
  constructor
  · intro c t h
    simp only [get_cik_from_ticker_or_name] at h
    split_ifs at h with hempty
    obtain ⟨r, hr, i, hci, hcz⟩ := aux_resolverGo_inv _ _ rows c t h
    have hg : regRowGood r = true := List.all_eq_true.1 h1 r hr
    rw [regRowGood, hci] at hg
    simp only [decide_eq_true_eq] at hg
    obtain ⟨hl, hd⟩ := aux_intDecStr_good i hg.1 hg.2
    rw [hcz]
    exact aux_pyZfill_good _ hd hl
  · intro c h
    unfold get_cik_from_archive at h
    obtain ⟨line, hline, hc⟩ := aux_archiveScan_inv _ _ c h
    have hg : archiveLineGood line = true :=
      List.all_eq_true.1 h2 line hline
    rw [hc]
    exact aux_archiveIdOf_good line hg

/-- C4 witness: a well-formed registry row and well-formed archive
lines; both resolution paths return the 10-digit "0000320193". -/
theorem c4_resolved_id_witness :
    c4Rows.all regRowGood = true ∧
    (c4Data.splitOn '\n').all archiveLineGood = true ∧
    get_cik_from_ticker_or_name (some "Apple".data) (some "AAPL".data) c4Rows =
      some ("0000320193".data, "AAPL".data) ∧
    get_cik_from_archive "Apple Inc".data c4Data = some "0000320193".data ∧
    ("0000320193".data).length = 10 ∧
    ("0000320193".data).all Char.isDigit = true := by
  refine ⟨by decide, by decide, by decide, by decide, ?_, ?_⟩
  · exact ((c4_resolved_id_ten_digits c4Rows (some "Apple".data)
      (some "AAPL".data) "Apple Inc".data c4Data (by decide) (by decide)).1
      "0000320193".data "AAPL".data (by decide)).1
  · exact ((c4_resolved_id_ten_digits c4Rows (some "Apple".data)
      (some "AAPL".data) "Apple Inc".data c4Data (by decide) (by decide)).2
      "0000320193".data (by decide)).2

/-- C10 (amended): whenever `extract_financial_data` returns a mapping
(no `float()` conversion error was raised), that mapping contains the
keys "arppu_data" and "membership_data" and is in particular non-empty.
(As stated over every input text the claim fails, see the
counterexample: a captured token "1.2.3" makes the unprotected
`float()` raise, so no mapping is returned.) -/
theorem c10_keys_always_present (t : List Char)
    (d : List (String × FinValue))
    (h : extract_financial_data t = some d) :
    "arppu_data" ∈ d.map Prod.fst ∧ "membership_data" ∈ d.map Prod.fst ∧
    d ≠ [] := by
  unfold extract_financial_data at h
  cases hp : extract_pretax_margin_data t with
  | none => rw [hp] at h; simp at h
  | some pd =>
    rw [hp] at h
    cases hm : membershipOf t with
    | none => rw [hm] at h; simp at h
    | some md =>
      rw [hm] at h
      simp only [Option.some_bind, Option.map_some', Option.some.injEq] at h
      subst h
      refine ⟨?_, ?_, ?_⟩
      · simp [List.map_append]
      · simp [List.map_append]
      · simp

/-- C10 witness: on the patternless text "xyz" the extractor returns
the two-key mapping. -/
theorem c10_keys_witness :
    extract_financial_data "xyz".data =
      some [("arppu_data", .arppu {}), ("membership_data", .membership {})] ∧
    "arppu_data" ∈
      ([("arppu_data", FinValue.arppu {}),
        ("membership_data", FinValue.membership {})].map Prod.fst) ∧
    "membership_data" ∈
      ([("arppu_data", FinValue.arppu {}),
        ("membership_data", FinValue.membership {})].map Prod.fst) ∧
    ([("arppu_data", FinValue.arppu {}),
      ("membership_data", FinValue.membership {})] :
        List (String × FinValue)) ≠ [] := by
  refine ⟨by decide, ?_, ?_, ?_⟩
  · exact (c10_keys_always_present "xyz".data _ (by decide)).1
  · exact (c10_keys_always_present "xyz".data _ (by decide)).2.1
  · exact (c10_keys_always_present "xyz".data _ (by decide)).2.2

/-- C5: whenever the ARPPU label patterns match at least one in-band
value (and the extractor returns at all), the `arppu_data` entry of
the result binds `arppu_direct` to the distinct in-band matched values
sorted ascending and capped at 5, and `arppu_overall` to the singleton
holding the most frequently matched value; the sorted list is strictly
ascending, carries exactly the matched values, and the overall value
is a matched value of maximal multiplicity. -/
theorem c5_arppu_mode_and_direct (t : List Char)
    (d : List (String × FinValue))
    (hfd : extract_financial_data t = some d)
    (hne : arppuSafeValues t ≠ []) :
    d.lookup "arppu_data" =
      some (.arppu
        { arppu_direct := some ((pySortedSetAsc (arppuSafeValues t)).take 5),
          arppu_overall := some [modeFirst (arppuSafeValues t)],
          source := some "global_mode_from_direct" }) ∧
    List.Sorted (· < ·) (pySortedSetAsc (arppuSafeValues t)) ∧
    (∀ v : ℚ, v ∈ pySortedSetAsc (arppuSafeValues t) ↔ v ∈ arppuSafeValues t) ∧
    modeFirst (arppuSafeValues t) ∈ arppuSafeValues t ∧
    (∀ v ∈ arppuSafeValues t,
      (arppuSafeValues t).count v ≤
        (arppuSafeValues t).count (modeFirst (arppuSafeValues t))) := by
  have hmemdedup : ∀ v : ℚ, v ∈ pyDedupFirst (arppuSafeValues t) ↔
      v ∈ arppuSafeValues t := by
    intro v
    simpa [pyDedupFirst] using aux_dedup_mem (arppuSafeValues t) [] v
  have hmem : ∀ v : ℚ, v ∈ pySortedSetAsc (arppuSafeValues t) ↔
      v ∈ arppuSafeValues t := by
    intro v
    rw [pySortedSetAsc, List.mem_insertionSort]
    exact hmemdedup v
  have hsorted : List.Sorted (· < ·) (pySortedSetAsc (arppuSafeValues t)) := by
    have h1 : List.Sorted (· ≤ ·) (pySortedSetAsc (arppuSafeValues t)) :=
      List.sorted_insertionSort _ _
    have h2 : (pySortedSetAsc (arppuSafeValues t)).Nodup :=
      (List.perm_insertionSort _ _).nodup_iff.2
        (by simpa [pyDedupFirst] using aux_dedup_nodup (arppuSafeValues t) [])
    exact h1.lt_of_le h2
  refine ⟨?_, hsorted, hmem, (aux_mode_max _ hne).1, (aux_mode_max _ hne).2⟩
  unfold extract_financial_data at hfd
  cases hp : extract_pretax_margin_data t with
  | none => rw [hp] at hfd; simp at hfd
  | some pd =>
    rw [hp] at hfd
    cases hm : membershipOf t with
    | none => rw [hm] at hfd; simp at hfd
    | some md =>
      rw [hm] at hfd
      simp only [Option.some_bind, Option.map_some', Option.some.injEq] at hfd
      subst hfd
      have hA : (metricsBase t).lookup "arppu_data" = none :=
        aux_lookup_table_none metricsTable t "arppu_data" (by decide)
      have hB : ((if pd.isEmptyD then []
          else [("pretax_margin_data", FinValue.pretax pd)]) :
            List (String × FinValue)).lookup "arppu_data" = none := by
        split_ifs
        · rfl
        · rfl
      rw [aux_lookup_append, aux_lookup_append, hA, hB]
      have harp : arppuOf t =
          { arppu_direct := some ((pySortedSetAsc (arppuSafeValues t)).take 5),
            arppu_overall := some [modeFirst (arppuSafeValues t)],
            source := some "global_mode_from_direct" } := by
        have hne' : (arppuSafeValues t).isEmpty = false := by
          cases h : arppuSafeValues t
          · exact absurd h hne
          · rfl
        rw [arppuOf, hne']
        simp [pySortedSetAsc]
      simp [List.lookup, harp]

/-- C5 witness: three matched mentions of $17.81 and one of $15.50 give
`arppu_overall = [17.81]` and `arppu_direct = [15.50, 17.81]` (both
distinct values, sorted ascending). -/
theorem c5_arppu_witness :
    extract_financial_data arppuText = some c5Dict ∧
    arppuSafeValues arppuText ≠ [] ∧
    (pySortedSetAsc (arppuSafeValues arppuText)).take 5 = [31/2, 1781/100] ∧
    modeFirst (arppuSafeValues arppuText) = 1781/100 ∧
    c5Dict.lookup "arppu_data" =
      some (.arppu
        { arppu_direct := some ((pySortedSetAsc (arppuSafeValues arppuText)).take 5),
          arppu_overall := some [modeFirst (arppuSafeValues arppuText)],
          source := some "global_mode_from_direct" }) := by
  refine ⟨by decide, by decide, by decide, by decide, ?_⟩
  exact (c5_arppu_mode_and_direct arppuText c5Dict (by decide) (by decide)).1

theorem aux_resolverGo_find (cc tu : List Char) :
    ∀ rows : List RegRow,
      resolverGo cc tu rows =
        (rows.find? (rowMatches cc tu)).bind
          (fun r => r.cikField.map
            (fun i => (pyZfill 10 (intDecStr i), pyUpper (pyStrip r.ticker)))) := by
  intro rows
  induction rows with
  | nil => rfl
  | cons r rest ih =>
    cases hc : r.cikField with
    | none =>
      have hrm : rowMatches cc tu r = false := by
        simp [rowMatches, hc]
      simp [resolverGo, hc, List.find?, hrm, ih]
    | some i =>
      by_cases h1 : pyUpper (pyStrip r.ticker) = tu
      · have hrm : rowMatches cc tu r = true := by
          simp [rowMatches, hc, h1]
        simp [resolverGo, hc, if_pos h1, List.find?, hrm]
      · by_cases h2 : cc = clean_company_name (clean_company_name (pyLower r.name))
        · have hrm : rowMatches cc tu r = true := by
            simp [rowMatches, hc, h2]
          simp [resolverGo, hc, if_neg h1, if_pos h2, List.find?, hrm]
        · have hrm : rowMatches cc tu r = false := by
            simp [rowMatches, hc, h1, h2]
          simp [resolverGo, hc, if_neg h1, if_neg h2, List.find?, hrm, ih]

/-- C7 (amended): the registry scan is row-ordered — the resolver
returns the first row (in registry order) that matches by exact
upper-cased ticker or by normalized name, with the exact-ticker test
deciding only within each row (it is checked before that same row's
name test, which is output-indistinguishable since both return that
row's CIK and ticker).  An exact ticker match in a LATER row does not
beat a name match in an EARLIER row, see the counterexample. -/
theorem c7_first_matching_row_wins (cn ts : Option (List Char))
    (rows : List RegRow) :
    get_cik_from_ticker_or_name cn ts rows =
      (if (pyStrip (cn.getD [])).isEmpty ∧ (pyStrip (ts.getD [])).isEmpty then
        none
      else
        (rows.find? (rowMatches (clean_company_name (pyStrip (cn.getD [])))
            (pyUpper (pyStrip (ts.getD []))))).bind
          (fun r => r.cikField.map
            (fun i => (pyZfill 10 (intDecStr i), pyUpper (pyStrip r.ticker))))) := by
  simp only [get_cik_from_ticker_or_name]
  split_ifs with h
  · rfl
  · exact aux_resolverGo_find _ _ rows

/-- C8: filing-date filtering is inclusive at both ends — with valid
date bounds `start ≤ end`, a form-matching filing row dated exactly on
the start or end date is selected, while a row dated one calendar day
before the start or one day after the end is not. -/
theorem c8_date_filter_inclusive (fts : List (List Char))
    (rows : List RawRow) (s e : Date) (r : RawRow)
    (hs : validDate s = true) (he : validDate e = true)
    (hse : dateLe s e = true) (hr : r ∈ rows)
    (hform : formOk fts r.form = true) :
    ((parseDate r.fdate = some s ∨ parseDate r.fdate = some e) →
      r ∈ secSelect fts (some s) (some e) true rows) ∧
    (parseDate r.fdate = some (prevDay s) →
      r ∉ secSelect fts (some s) (some e) true rows) ∧
    (parseDate r.fdate = some (nextDay e) →
      r ∉ secSelect fts (some s) (some e) true rows) := by
  have hes : dateLt e s = false := by
    simpa [dateLe] using hse
  refine ⟨?_, ?_, ?_⟩
  · rintro (hp | hp) <;>
      (rw [secSelect]
       refine List.mem_filter.2 ⟨hr, ?_⟩
       simp [hp, hform, aux_dateLt_irrefl, hes])
  · intro hp hmem
    rw [secSelect] at hmem
    have hpred := (List.mem_filter.1 hmem).2
    simp [hp, hform, aux_prevDay_lt s hs] at hpred
  · intro hp hmem
    rw [secSelect] at hmem
    have hpred := (List.mem_filter.1 hmem).2
    simp [hp, hform, aux_lt_nextDay e he] at hpred

/-- C8 witness: with bounds 2024-03-01 .. 2024-03-31, rows dated on the
two bounds are selected and rows dated 2024-02-29 (the leap-year day
before the start) and 2024-04-01 (the day after the end) are not; the
selected list is exactly the two boundary rows. -/
theorem c8_date_filter_witness :
    validDate ⟨2024, 3, 1⟩ = true ∧ validDate ⟨2024, 3, 31⟩ = true ∧
    dateLe ⟨2024, 3, 1⟩ ⟨2024, 3, 31⟩ = true ∧
    prevDay ⟨2024, 3, 1⟩ = ⟨2024, 2, 29⟩ ∧
    nextDay ⟨2024, 3, 31⟩ = ⟨2024, 4, 1⟩ ∧
    c8r1 ∈ secSelect ["10-K".data] (some ⟨2024, 3, 1⟩) (some ⟨2024, 3, 31⟩)
      true c8Rows ∧
    c8r2 ∈ secSelect ["10-K".data] (some ⟨2024, 3, 1⟩) (some ⟨2024, 3, 31⟩)
      true c8Rows ∧
    c8r3 ∉ secSelect ["10-K".data] (some ⟨2024, 3, 1⟩) (some ⟨2024, 3, 31⟩)
      true c8Rows ∧
    c8r4 ∉ secSelect ["10-K".data] (some ⟨2024, 3, 1⟩) (some ⟨2024, 3, 31⟩)
      true c8Rows ∧
    secSelect ["10-K".data] (some ⟨2024, 3, 1⟩) (some ⟨2024, 3, 31⟩)
      true c8Rows = [c8r1, c8r2] := by
  refine ⟨by decide, by decide, by decide, by decide, by decide, ?_, ?_, ?_, ?_,
    by decide⟩
  · exact (c8_date_filter_inclusive ["10-K".data] c8Rows ⟨2024, 3, 1⟩
      ⟨2024, 3, 31⟩ c8r1 (by decide) (by decide) (by decide) (by decide)
      (by decide)).1 (Or.inl (by decide))
  · exact (c8_date_filter_inclusive ["10-K".data] c8Rows ⟨2024, 3, 1⟩
      ⟨2024, 3, 31⟩ c8r2 (by decide) (by decide) (by decide) (by decide)
      (by decide)).1 (Or.inr (by decide))
  · exact (c8_date_filter_inclusive ["10-K".data] c8Rows ⟨2024, 3, 1⟩
      ⟨2024, 3, 31⟩ c8r3 (by decide) (by decide) (by decide) (by decide)
      (by decide)).2.1 (by decide)
  · exact (c8_date_filter_inclusive ["10-K".data] c8Rows ⟨2024, 3, 1⟩
      ⟨2024, 3, 31⟩ c8r4 (by decide) (by decide) (by decide) (by decide)
      (by decide)).2.2 (by decide)

end SecSearch
